import Mathlib

/-!
# mem_queue: a fixed-capacity double-ended queue over one preallocated block

A shallow embedding of the class template `mem_queue<T>` of `mem_manage.h`.

* The private fields become a structure; the constructor and every member
  function become functions from the state before the call to the state after
  it. A function returns `none` exactly when the C++ call has undefined
  behaviour.
* The lock pointer is a field. `none` stands for `nullptr`, which is the value
  the member initialiser gives it and which no statement of the class ever
  changes; `some held` is a pointer to a spin lock that is held or free. The
  three `pthread_spin_*` calls have no result through a null pointer.
* `int` values are mathematical integers; every increment and decrement
  of `list_count` goes through `int_checked`, which has no result when the
  value leaves the range of a 32-bit `int`.
* The block behind `list` is a list of cells, `none` standing for `nullptr`.
  Every `list[i]` goes through `load` or `store`, which have no result when
  the pointer is null or the index lies outside the block.
* The statements a member runs between taking and releasing the lock are a
  function of their own (`PushBack_section`, ...), so that what they do to the
  buffer can be told apart from what the lock calls do.
* The caller's output slot `T* item` is passed in as its current value and
  handed back as its value after the call.
-/

namespace MemManage

/-- Largest value of a 32-bit `int`. -/
def INT_MAX : Int := 2147483647

/-- Smallest value of a 32-bit `int`. -/
def INT_MIN : Int := -2147483648

/-- Result of an `int` computation: the value when it is representable. -/
def int_checked (v : Int) : Option Int :=
  if INT_MIN ≤ v ∧ v ≤ INT_MAX then some v else none

/-- Private fields of `mem_queue<T>`. -/
structure mem_queue (T : Type) where
  init_success : Bool
  list_max : Int
  list_count : Int
  list : Option (List T)
  lock : Option Bool
  deriving DecidableEq

namespace mem_queue

variable {T : Type}

/-- Library call `pthread_spin_init(lock, PTHREAD_PROCESS_SHARED)`: it writes
the free value through the pointer, so it has no result through `nullptr`. -/
def pthread_spin_init (q : mem_queue T) : Option (mem_queue T) :=
  match q.lock with
  | none => none
  | some _ => some { q with lock := some false }

/-- Library call `pthread_spin_lock(lock)`: it takes a free lock; it has no
result through `nullptr`, and none on a lock the caller already holds. -/
def pthread_spin_lock (q : mem_queue T) : Option (mem_queue T) :=
  match q.lock with
  | some false => some { q with lock := some true }
  | _ => none

/-- Library call `pthread_spin_unlock(lock)`: it frees a held lock; it has no
result through `nullptr`, and none on a lock that is not held. -/
def pthread_spin_unlock (q : mem_queue T) : Option (mem_queue T) :=
  match q.lock with
  | some true => some { q with lock := some false }
  | _ => none

/-- The object as the default member initialisers leave it, before the body of
the constructor runs. -/
def fields : mem_queue T :=
  { init_success := false, list_max := 0, list_count := 0, list := none, lock := none }

/-- The constructor: the member initialisers, then `pthread_spin_init(lock, ...)`
(its return value only decides whether a line is logged). -/
def ctor : Option (mem_queue T) :=
  (fields : mem_queue T).pthread_spin_init

/-- Outcome of `malloc(sizeof(T) * n)`: a null pointer, or a block of `n`
cells whose contents are whatever the allocator left there. -/
def malloc (n : Int) (outcome : Option (Nat → T)) : Option (List T) :=
  match outcome with
  | none => none
  | some junk => some ((List.range n.toNat).map junk)

/-- Read of `list[i]`. -/
def load (q : mem_queue T) (i : Int) : Option T :=
  match q.list with
  | none => none
  | some cells => if 0 ≤ i then cells[i.toNat]? else none

/-- Assignment `list[i] = v`. -/
def store (q : mem_queue T) (i : Int) (v : T) : Option (mem_queue T) :=
  match q.list with
  | none => none
  | some cells =>
    if 0 ≤ i ∧ i < (cells.length : Int) then
      some { q with list := some (cells.set i.toNat v) }
    else none

/-- Statements of `Init(count)` between the lock and the label `out`;
`outcome` is what the allocator does when asked. -/
def Init_section (q : mem_queue T) (count : Int) (outcome : Option (Nat → T)) :
    mem_queue T :=
  if q.init_success then q
  else if count ≤ 0 then q
  else
    let q1 := { q with list_max := count }
    let q2 := { q1 with list := malloc q1.list_max outcome }
    if q2.list.isNone then q2
    else { q2 with init_success := true }

/-- Member `Init(count)`: lock, the statements above, unlock, and the flag as
return value. -/
def Init (q : mem_queue T) (count : Int) (outcome : Option (Nat → T)) :
    Option (mem_queue T × Bool) := do
  let q0 ← q.pthread_spin_lock
  let q1 ← (q0.Init_section count outcome).pthread_spin_unlock
  some (q1, q1.init_success)

/-- Statements of `PushBack(item)` between lock and unlock. -/
def PushBack_section (q : mem_queue T) (item : T) : Option (mem_queue T × Bool) :=
  if q.list_count ≥ q.list_max then some (q, false)
  else do
    let q1 ← q.store q.list_count item
    let c ← int_checked (q1.list_count + 1)
    some ({ q1 with list_count := c }, true)

/-- Member `PushBack(item)`. -/
def PushBack (q : mem_queue T) (item : T) : Option (mem_queue T × Bool) :=
  if !q.init_success then some (q, false)
  else do
    let q0 ← q.pthread_spin_lock
    let r ← q0.PushBack_section item
    let q1 ← r.1.pthread_spin_unlock
    some (q1, r.2)

/-- Loop of `PushFront`: `for (i = n; i > 0; i--) list[i] = list[i - 1];`.
The counter only ever decreases to `0`, so it is recursed on directly. -/
def PushFront_loop : Nat → mem_queue T → Option (mem_queue T)
  | 0, q => some q
  | i + 1, q => do
    let v ← q.load (((i + 1 : Nat) : Int) - 1)
    let q1 ← q.store ((i + 1 : Nat) : Int) v
    PushFront_loop i q1

/-- Statements of `PushFront(item)` between lock and unlock. -/
def PushFront_section (q : mem_queue T) (item : T) : Option (mem_queue T × Bool) :=
  if q.list_count ≥ q.list_max then some (q, false)
  else do
    let q1 ← PushFront_loop q.list_count.toNat q
    let q2 ← q1.store 0 item
    let c ← int_checked (q2.list_count + 1)
    some ({ q2 with list_count := c }, true)

/-- Member `PushFront(item)`. -/
def PushFront (q : mem_queue T) (item : T) : Option (mem_queue T × Bool) :=
  if !q.init_success then some (q, false)
  else do
    let q0 ← q.pthread_spin_lock
    let r ← q0.PushFront_section item
    let q1 ← r.1.pthread_spin_unlock
    some (q1, r.2)

/-- Statements of `PopBack(item)` between lock and unlock; `slot` is the value
`*item` holds on entry. The result carries the state, the value of `*item`
afterwards and the flag. -/
def PopBack_section (q : mem_queue T) (slot : T) : Option (mem_queue T × T × Bool) :=
  if q.list_count = 0 then some (q, slot, false)
  else do
    let v ← q.load (q.list_count - 1)
    let c ← int_checked (q.list_count - 1)
    some ({ q with list_count := c }, v, true)

/-- Member `PopBack(item)`. -/
def PopBack (q : mem_queue T) (slot : T) : Option (mem_queue T × T × Bool) :=
  if !q.init_success then some (q, slot, false)
  else do
    let q0 ← q.pthread_spin_lock
    let r ← q0.PopBack_section slot
    let q1 ← r.1.pthread_spin_unlock
    some (q1, r.2.1, r.2.2)

/-- Loop of `PopFront`: `for (i = 0; i < list_count; i++) list[i] = list[i + 1];`
with `todo` the number of iterations still to run, `list_count - i`. -/
def PopFront_loop : Nat → Nat → mem_queue T → Option (mem_queue T)
  | 0, _, q => some q
  | todo + 1, i, q => do
    let v ← q.load ((i : Int) + 1)
    let q1 ← q.store (i : Int) v
    PopFront_loop todo (i + 1) q1

/-- Statements of `PopFront(item)` between lock and unlock. -/
def PopFront_section (q : mem_queue T) (slot : T) : Option (mem_queue T × T × Bool) :=
  if q.list_count = 0 then some (q, slot, false)
  else do
    let v ← q.load 0
    let c ← int_checked (q.list_count - 1)
    let q1 := { q with list_count := c }
    let q2 ← PopFront_loop q1.list_count.toNat 0 q1
    some (q2, v, true)

/-- Member `PopFront(item)`. -/
def PopFront (q : mem_queue T) (slot : T) : Option (mem_queue T × T × Bool) :=
  if !q.init_success then some (q, slot, false)
  else do
    let q0 ← q.pthread_spin_lock
    let r ← q0.PopFront_section slot
    let q1 ← r.1.pthread_spin_unlock
    some (q1, r.2.1, r.2.2)

/-- Statements of `GetItem(index, item)` between lock and unlock. -/
def GetItem_section (q : mem_queue T) (index : Int) (slot : T) :
    Option (mem_queue T × T × Bool) :=
  if index > q.list_count ∨ index ≤ 0 then some (q, slot, false)
  else do
    let v ← q.load (index - 1)
    some (q, v, true)

/-- Member `GetItem(index, item)`. -/
def GetItem (q : mem_queue T) (index : Int) (slot : T) :
    Option (mem_queue T × T × Bool) :=
  if !q.init_success then some (q, slot, false)
  else do
    let q0 ← q.pthread_spin_lock
    let r ← q0.GetItem_section index slot
    let q1 ← r.1.pthread_spin_unlock
    some (q1, r.2.1, r.2.2)

/-- Member `Count()`: lock, read of `list_count`, unlock; there is no test of
the flag before the lock. -/
def Count (q : mem_queue T) : Option (mem_queue T × Int) := do
  let q0 ← q.pthread_spin_lock
  let back := q0.list_count
  let q1 ← q0.pthread_spin_unlock
  some (q1, back)

/-- The fields of an initialised container are consistent: the flag is set, the
block behind `list` has `list_max` cells, `list_max` is an `int`, and
`list_count` lies between `0` and `list_max`. Nothing is said of the lock. -/
def Initialized (q : mem_queue T) : Prop :=
  q.init_success = true ∧ 0 ≤ q.list_count ∧ q.list_count ≤ q.list_max ∧
    q.list_max ≤ INT_MAX ∧
    q.list.map (fun cells => (cells.length : Int)) = some q.list_max

instance (q : mem_queue T) : Decidable (Initialized q) := by
  unfold Initialized
  infer_instance

/-- An initialised container whose lock pointer refers to a free spin lock.
The class never builds one: it leaves the pointer null. -/
def Ready (q : mem_queue T) : Prop :=
  q.init_success = true ∧ 0 ≤ q.list_count ∧ q.list_count ≤ q.list_max ∧
    q.list_max ≤ INT_MAX ∧
    q.list.map (fun cells => (cells.length : Int)) = some q.list_max ∧
    q.lock = some false

instance (q : mem_queue T) : Decidable (Ready q) := by
  unfold Ready
  infer_instance

/-- Live elements `list[0 .. list_count)`, front first. -/
def live (q : mem_queue T) : List T :=
  (q.list.getD []).take q.list_count.toNat

/-- The same fields with the lock pointer the class really has: `nullptr`. -/
def asBuilt (q : mem_queue T) : mem_queue T :=
  { q with lock := none }

/-- One call of a member other than `Init`, with its arguments. For the calls
that take `T* item`, `slot` is the value behind the pointer on entry. -/
inductive Call (T : Type) where
  | PushBack (item : T)
  | PushFront (item : T)
  | PopBack (slot : T)
  | PopFront (slot : T)
  | GetItem (index : Int) (slot : T)
  | Count

/-- State after one call. -/
def step (q : mem_queue T) : Call T → Option (mem_queue T)
  | .PushBack item => (q.PushBack item).map Prod.fst
  | .PushFront item => (q.PushFront item).map Prod.fst
  | .PopBack slot => (q.PopBack slot).map Prod.fst
  | .PopFront slot => (q.PopFront slot).map Prod.fst
  | .GetItem index slot => (q.GetItem index slot).map Prod.fst
  | .Count => q.Count.map Prod.fst

/-- State after a sequence of calls, made one after the other. -/
def run (q : mem_queue T) : List (Call T) → Option (mem_queue T)
  | [] => some q
  | c :: cs => (q.step c).bind (fun q1 => run q1 cs)

/-- Caller that pushes the items of `xs` in order with `PushBack`; the result
carries the final state and the flag of every call. -/
def pushBackAll (q : mem_queue T) : List T → Option (mem_queue T × List Bool)
  | [] => some (q, [])
  | x :: xs => do
    let r ← q.PushBack x
    let rest ← pushBackAll r.1 xs
    some (rest.1, r.2 :: rest.2)

/-- Caller that calls `PopFront` `n` times on the same variable, whose value is
`slot` on entry; the result carries the final state, the value of the variable
after every call and the flag of every call. -/
def popFrontTimes : Nat → mem_queue T → T → Option (mem_queue T × List T × List Bool)
  | 0, q, _ => some (q, [], [])
  | n + 1, q, slot => do
    let r ← q.PopFront slot
    let rest ← popFrontTimes n r.1 r.2.1
    some (rest.1, r.2.1 :: rest.2.1, r.2.2 :: rest.2.2)

/-- Caller that calls `PopBack` `n` times on the same variable; as
`popFrontTimes`. -/
def popBackTimes : Nat → mem_queue T → T → Option (mem_queue T × List T × List Bool)
  | 0, q, _ => some (q, [], [])
  | n + 1, q, slot => do
    let r ← q.PopBack slot
    let rest ← popBackTimes n r.1 r.2.1
    some (rest.1, r.2.1 :: rest.2.1, r.2.2 :: rest.2.2)

/-- Initialised container with `n` live elements over the block `cells` and
the lock pointer `lk`. -/
def cellsAt (lk : Option Bool) (n : Nat) (cells : List T) : mem_queue T :=
  { init_success := true, list_max := (cells.length : Int),
    list_count := (n : Int), list := some cells, lock := lk }

/-- Initialised container with `n` live elements over the block `cells` and a
free spin lock. -/
def ofCells (n : Nat) (cells : List T) : mem_queue T :=
  { init_success := true, list_max := (cells.length : Int),
    list_count := (n : Int), list := some cells, lock := some false }

/-- One call of the whole public interface: `Init` with its argument and what
the allocator does when asked, or one of the other members. -/
inductive LifeCall (T : Type) where
  | Init (count : Int) (outcome : Option (Nat → T))
  | member (c : Call T)

/-- The argument of an `Init` call is an `int`. -/
def LifeCall.typed : LifeCall T → Bool
  | .Init count _ => decide (INT_MIN ≤ count) && decide (count ≤ INT_MAX)
  | .member _ => true

/-- State after one call of the whole interface. -/
def lifeStep (q : mem_queue T) : LifeCall T → Option (mem_queue T)
  | .Init count outcome => (q.Init count outcome).map Prod.fst
  | .member c => q.step c

/-- State after a sequence of calls of the whole interface. -/
def lifeRun (q : mem_queue T) : List (LifeCall T) → Option (mem_queue T)
  | [] => some q
  | c :: cs => (q.lifeStep c).bind (fun q1 => lifeRun q1 cs)

/-- A whole use of the class: the constructor, then the calls in order. -/
def session (calls : List (LifeCall T)) : Option (mem_queue T) :=
  (ctor : Option (mem_queue T)).bind (fun q => q.lifeRun calls)

/-- Invariant of the life cycle when the lock is usable: an initialised
container, or one whose initialisation has not succeeded, which has no buffer
and no element. -/
def Lifecycle (q : mem_queue T) : Prop :=
  Ready q ∨
    (q.init_success = false ∧ q.list_count = 0 ∧ q.list = none ∧ q.lock = some false)

/-- The two ends of the container. -/
inductive Side where
  | back
  | front
  deriving DecidableEq

/-- Push at the given end: `PushBack` or `PushFront`. -/
def pushAt (q : mem_queue T) : Side → T → Option (mem_queue T × Bool)
  | .back, item => q.PushBack item
  | .front, item => q.PushFront item

/-- Pop at the given end: `PopBack` or `PopFront`. -/
def popAt (q : mem_queue T) : Side → T → Option (mem_queue T × T × Bool)
  | .back, slot => q.PopBack slot
  | .front, slot => q.PopFront slot

/-- Caller that makes one push after the other, each at the end it names; the
result carries the final state and the flag of every call. -/
def pushesAt (q : mem_queue T) : List (Side × T) → Option (mem_queue T × List Bool)
  | [] => some (q, [])
  | p :: ps => do
    let r ← q.pushAt p.1 p.2
    let rest ← pushesAt r.1 ps
    some (rest.1, r.2 :: rest.2)

/-- Sample state: capacity 3, two live elements `10, 20`, a free lock. -/
def sample : mem_queue Nat :=
  { init_success := true, list_max := 3, list_count := 2, list := some [10, 20, 30],
    lock := some false }

/-- Sample state: capacity 3, no live element, a free lock. -/
def sampleEmpty : mem_queue Nat :=
  { init_success := true, list_max := 3, list_count := 0, list := some [10, 20, 30],
    lock := some false }

/-- Sample state: capacity 3, full, a free lock. -/
def sampleFull : mem_queue Nat :=
  { init_success := true, list_max := 3, list_count := 3, list := some [10, 20, 30],
    lock := some false }

/-- Sample state: the member initialisers with a free lock in place of the
null pointer. -/
def sampleFresh : mem_queue Nat :=
  { init_success := false, list_max := 0, list_count := 0, list := none,
    lock := some false }

/-! ## Memory accesses inside the block -/

theorem load_cell (q : mem_queue T) (cells : List T) (h : q.list = some cells)
    (z : Int) (i : Nat) (hz : z = (i : Int)) : q.load z = cells[i]? := by
  subst hz
  simp [load, h]

theorem store_cell (q : mem_queue T) (cells : List T) (h : q.list = some cells)
    (z : Int) (i : Nat) (hz : z = (i : Int)) (hi : i < cells.length) (v : T) :
    q.store z v = some { q with list := some (cells.set i v) } := by
  subst hz
  simp [store, h, hi]

theorem int_checked_ok (v : Int) (h1 : INT_MIN ≤ v) (h2 : v ≤ INT_MAX) :
    int_checked v = some v := by
  simp [int_checked, h1, h2]

/-- Consistent fields, field by field. -/
theorem Initialized.inCells {q : mem_queue T} (h : Initialized q) :
    ∃ (n : Nat) (cells : List T),
      q = cellsAt q.lock n cells ∧ n ≤ cells.length ∧ (cells.length : Int) ≤ INT_MAX := by
  obtain ⟨ini, mx, cnt, l, lk⟩ := q
  obtain ⟨h1, h2, h3, h4, h5⟩ := h
  simp only at h1 h2 h3 h4 h5
  cases l with
  | none => simp at h5
  | some cells =>
    simp only [Option.map_some', Option.some.injEq] at h5
    obtain ⟨n, rfl⟩ := Int.eq_ofNat_of_zero_le h2
    subst h1
    subst h5
    exact ⟨n, cells, rfl, by omega, h4⟩

theorem Initialized_cellsAt (lk : Option Bool) (n : Nat) (cells : List T)
    (h1 : n ≤ cells.length) (h2 : (cells.length : Int) ≤ INT_MAX) :
    Initialized (cellsAt lk n cells) := by
  refine ⟨rfl, ?_, ?_, h2, rfl⟩
  · exact Int.ofNat_nonneg n
  · exact Int.ofNat_le.mpr h1

/-- An initialised container with a free lock, field by field. -/
theorem Ready.toCells {q : mem_queue T} (h : Ready q) :
    ∃ (n : Nat) (cells : List T),
      q = ofCells n cells ∧ n ≤ cells.length ∧ (cells.length : Int) ≤ INT_MAX := by
  obtain ⟨ini, mx, cnt, l, lk⟩ := q
  obtain ⟨h1, h2, h3, h4, h5, h6⟩ := h
  simp only at h1 h2 h3 h4 h5 h6
  cases l with
  | none => simp at h5
  | some cells =>
    simp only [Option.map_some', Option.some.injEq] at h5
    obtain ⟨n, rfl⟩ := Int.eq_ofNat_of_zero_le h2
    subst h1
    subst h5
    subst h6
    exact ⟨n, cells, rfl, by omega, h4⟩

theorem Ready_ofCells (n : Nat) (cells : List T) (h1 : n ≤ cells.length)
    (h2 : (cells.length : Int) ≤ INT_MAX) : Ready (ofCells n cells) := by
  refine ⟨rfl, ?_, ?_, h2, rfl, rfl⟩
  · exact Int.ofNat_nonneg n
  · exact Int.ofNat_le.mpr h1

theorem live_ofCells (n : Nat) (cells : List T) : live (ofCells n cells) = cells.take n := by
  simp [live, ofCells]

theorem load_ofCells (n : Nat) (cells : List T) (i : Nat) :
    (ofCells n cells).load (i : Int) = cells[i]? :=
  load_cell _ cells rfl _ i rfl

theorem load_ofCells_int (n : Nat) (cells : List T) (i : Int) (hi : 0 ≤ i) :
    (ofCells n cells).load i = cells[i.toNat]? := by
  simp [load, ofCells, hi]

/-! ## The lock calls -/

theorem lock_free (q : mem_queue T) (h : q.lock = some false) :
    q.pthread_spin_lock = some { q with lock := some true } := by
  unfold pthread_spin_lock
  rw [h]

theorem unlock_held (q : mem_queue T) (h : q.lock = some true) :
    q.pthread_spin_unlock = some { q with lock := some false } := by
  unfold pthread_spin_unlock
  rw [h]

theorem lock_null (q : mem_queue T) (h : q.lock = none) : q.pthread_spin_lock = none := by
  unfold pthread_spin_lock
  rw [h]

theorem lock_none_iff (q : mem_queue T) :
    (q.pthread_spin_lock).isSome = true ↔ q.lock = some false := by
  unfold pthread_spin_lock
  cases h : q.lock with
  | none => simp
  | some b => cases b <;> simp

theorem ctor_none : (ctor : Option (mem_queue T)) = none := rfl

theorem session_none (calls : List (LifeCall T)) : session calls = none := rfl

/-! ## The two shift loops -/

theorem PushFront_loop_cells (n : Nat) :
    ∀ (q : mem_queue T) (cells : List T), q.list = some cells → n < cells.length →
      ∃ cells', PushFront_loop n q = some { q with list := some cells' } ∧
        cells'.length = cells.length ∧
        ∀ j : Nat, cells'[j]? = if 1 ≤ j ∧ j ≤ n then cells[j - 1]? else cells[j]? := by
  induction n with
  | zero =>
    intro q cells h _
    refine ⟨cells, ?_, rfl, ?_⟩
    · simp [PushFront_loop, ← h]
    · intro j
      have : ¬ (1 ≤ j ∧ j ≤ 0) := by omega
      rw [if_neg this]
  | succ n ih =>
    intro q cells h hn
    have hv : cells[n]? = some (cells[n]) := List.getElem?_eq_getElem (by omega)
    have hl : q.load (((n + 1 : Nat) : Int) - 1) = some (cells[n]) := by
      rw [load_cell q cells h _ n (by push_cast; ring), hv]
    have hs := store_cell q cells h ((n + 1 : Nat) : Int) (n + 1) rfl hn (cells[n])
    obtain ⟨cells', h1, h2, h3⟩ :=
      ih { q with list := some (cells.set (n + 1) (cells[n])) }
        (cells.set (n + 1) (cells[n])) rfl (by simp; omega)
    refine ⟨cells', ?_, ?_, ?_⟩
    · simp only [PushFront_loop, hl, hs, Option.bind_eq_bind, Option.some_bind]
      exact h1
    · simpa using h2
    · intro j
      rw [h3 j]
      by_cases c1 : 1 ≤ j ∧ j ≤ n
      · have c2 : 1 ≤ j ∧ j ≤ n + 1 := by omega
        rw [if_pos c1, if_pos c2, List.getElem?_set_ne (by omega)]
      · by_cases c3 : j = n + 1
        · subst c3
          simp [hv, hn]
        · have c2 : ¬ (1 ≤ j ∧ j ≤ n + 1) := by omega
          rw [if_neg c1, if_neg c2, List.getElem?_set_ne (by omega)]

theorem PopFront_loop_cells (todo : Nat) :
    ∀ (i : Nat) (q : mem_queue T) (cells : List T), q.list = some cells →
      i + todo < cells.length →
      ∃ cells', PopFront_loop todo i q = some { q with list := some cells' } ∧
        cells'.length = cells.length ∧
        ∀ j : Nat, cells'[j]? = if i ≤ j ∧ j < i + todo then cells[j + 1]? else cells[j]? := by
  induction todo with
  | zero =>
    intro i q cells h _
    refine ⟨cells, ?_, rfl, ?_⟩
    · simp [PopFront_loop, ← h]
    · intro j
      have : ¬ (i ≤ j ∧ j < i + 0) := by omega
      rw [if_neg this]
  | succ todo ih =>
    intro i q cells h hn
    have hv : cells[i + 1]? = some (cells[i + 1]) := List.getElem?_eq_getElem (by omega)
    have hl : q.load ((i : Int) + 1) = some (cells[i + 1]) := by
      rw [load_cell q cells h _ (i + 1) (by push_cast; ring), hv]
    have hs := store_cell q cells h (i : Int) i rfl (by omega) (cells[i + 1])
    obtain ⟨cells', h1, h2, h3⟩ :=
      ih (i + 1) { q with list := some (cells.set i (cells[i + 1])) }
        (cells.set i (cells[i + 1])) rfl (by simp; omega)
    refine ⟨cells', ?_, ?_, ?_⟩
    · simp only [PopFront_loop, hl, hs, Option.bind_eq_bind, Option.some_bind]
      exact h1
    · simpa using h2
    · intro j
      rw [h3 j]
      by_cases c1 : i + 1 ≤ j ∧ j < i + 1 + todo
      · have c2 : i ≤ j ∧ j < i + (todo + 1) := by omega
        rw [if_pos c1, if_pos c2, List.getElem?_set_ne (by omega)]
      · by_cases c3 : j = i
        · subst c3
          have c2 : j ≤ j ∧ j < j + (todo + 1) := by omega
          have hj : j < cells.length := by omega
          rw [if_neg c1, if_pos c2]
          simp [hv, hj]
        · have c2 : ¬ (i ≤ j ∧ j < i + (todo + 1)) := by omega
          rw [if_neg c1, if_neg c2, List.getElem?_set_ne (by omega)]

/-! ## The statements between lock and unlock, one at a time

`int_checked` is never unfolded on a symbolic argument: the range test is
discharged once, in `int_checked_ok`, and the results are rewritten. -/

theorem PushBack_section_exec (q q1 : mem_queue T) (item : T) (c : Int)
    (h2 : q.list_count < q.list_max)
    (h3 : q.store q.list_count item = some q1)
    (h4 : int_checked (q1.list_count + 1) = some c) :
    q.PushBack_section item = some ({ q1 with list_count := c }, true) := by
  unfold PushBack_section
  rw [if_neg (by omega), h3]
  show (int_checked (q1.list_count + 1)).bind _ = _
  rw [h4]
  rfl

theorem PushFront_section_exec (q q1 q2 : mem_queue T) (item : T) (c : Int)
    (h2 : q.list_count < q.list_max)
    (h3 : PushFront_loop q.list_count.toNat q = some q1)
    (h4 : q1.store 0 item = some q2)
    (h5 : int_checked (q2.list_count + 1) = some c) :
    q.PushFront_section item = some ({ q2 with list_count := c }, true) := by
  unfold PushFront_section
  rw [if_neg (by omega), h3]
  show (q1.store 0 item).bind _ = _
  rw [h4]
  show (int_checked (q2.list_count + 1)).bind _ = _
  rw [h5]
  rfl

theorem PopBack_section_exec (q : mem_queue T) (slot v : T) (c : Int)
    (h2 : q.list_count ≠ 0)
    (h3 : q.load (q.list_count - 1) = some v)
    (h4 : int_checked (q.list_count - 1) = some c) :
    q.PopBack_section slot = some ({ q with list_count := c }, v, true) := by
  unfold PopBack_section
  rw [if_neg h2, h3]
  show (int_checked (q.list_count - 1)).bind _ = _
  rw [h4]
  rfl

theorem PopFront_section_exec (q q2 : mem_queue T) (slot v : T) (c : Int)
    (h2 : q.list_count ≠ 0)
    (h3 : q.load 0 = some v)
    (h4 : int_checked (q.list_count - 1) = some c)
    (h5 : PopFront_loop c.toNat 0 { q with list_count := c } = some q2) :
    q.PopFront_section slot = some (q2, v, true) := by
  unfold PopFront_section
  rw [if_neg h2, h3]
  show (int_checked (q.list_count - 1)).bind _ = _
  rw [h4]
  show (PopFront_loop c.toNat 0 _).bind _ = _
  rw [h5]
  rfl

theorem GetItem_section_exec (q : mem_queue T) (index : Int) (slot v : T)
    (h2 : 0 < index) (h3 : index ≤ q.list_count)
    (h4 : q.load (index - 1) = some v) :
    q.GetItem_section index slot = some (q, v, true) := by
  unfold GetItem_section
  rw [if_neg (by omega), h4]
  rfl

/-! ## The statements between lock and unlock on consistent fields -/

theorem PushBack_section_cells (lk : Option Bool) (n : Nat) (cells : List T) (item : T)
    (hn : n < cells.length) (hmax : (cells.length : Int) ≤ INT_MAX) :
    (cellsAt lk n cells).PushBack_section item =
      some (cellsAt lk (n + 1) (cells.set n item), true) := by
  have hs := store_cell (cellsAt lk n cells) cells rfl (n : Int) n rfl hn item
  have hc : int_checked ((n : Int) + 1) = some ((n : Int) + 1) :=
    int_checked_ok _ (by unfold INT_MIN; omega) (by omega)
  rw [PushBack_section_exec (cellsAt lk n cells) _ item _ (by simp only [cellsAt]; omega)
    hs hc]
  simp [cellsAt]

theorem PushBack_section_full (lk : Option Bool) (n : Nat) (cells : List T) (item : T)
    (hn : n = cells.length) :
    (cellsAt lk n cells).PushBack_section item = some (cellsAt lk n cells, false) := by
  subst hn
  simp [PushBack_section, cellsAt]

theorem PushFront_section_cells (lk : Option Bool) (n : Nat) (cells : List T) (item : T)
    (hn : n < cells.length) (hmax : (cells.length : Int) ≤ INT_MAX) :
    ∃ cells', (cellsAt lk n cells).PushFront_section item =
        some (cellsAt lk (n + 1) cells', true) ∧
      cells'.length = cells.length ∧
      ∀ j : Nat, cells'[j]? =
        if j = 0 then some item else if j ≤ n then cells[j - 1]? else cells[j]? := by
  obtain ⟨mid, h1, h2, h3⟩ := PushFront_loop_cells n (cellsAt lk n cells) cells rfl hn
  have hs := store_cell { cellsAt lk n cells with list := some mid } mid rfl 0 0 rfl
    (by omega) item
  have hc : int_checked ((n : Int) + 1) = some ((n : Int) + 1) :=
    int_checked_ok _ (by unfold INT_MIN; omega) (by omega)
  refine ⟨mid.set 0 item, ?_, by simp [h2], ?_⟩
  · rw [PushFront_section_exec (cellsAt lk n cells) _ _ item _
      (by simp only [cellsAt]; omega) (by simpa [cellsAt] using h1) hs hc]
    simp [cellsAt, h2]
  · intro j
    by_cases c0 : j = 0
    · subst c0
      have : 0 < mid.length := by omega
      simp [this]
    · rw [if_neg c0, List.getElem?_set_ne (by omega), h3 j]
      by_cases c1 : j ≤ n
      · rw [if_pos ⟨by omega, c1⟩, if_pos c1]
      · rw [if_neg (by omega), if_neg c1]

theorem PushFront_section_full (lk : Option Bool) (n : Nat) (cells : List T) (item : T)
    (hn : n = cells.length) :
    (cellsAt lk n cells).PushFront_section item = some (cellsAt lk n cells, false) := by
  subst hn
  simp [PushFront_section, cellsAt]

theorem PopBack_section_cells (lk : Option Bool) (n : Nat) (cells : List T) (slot : T)
    (hn : n < cells.length) (hmax : (cells.length : Int) ≤ INT_MAX) :
    (cellsAt lk (n + 1) cells).PopBack_section slot =
      some (cellsAt lk n cells, cells[n], true) := by
  have hl : (cellsAt lk (n + 1) cells).load (((n + 1 : Nat) : Int) - 1) =
      some (cells[n]) := by
    rw [load_cell _ cells rfl _ n (by push_cast; ring)]
    exact List.getElem?_eq_getElem hn
  have hc : int_checked (((n + 1 : Nat) : Int) - 1) = some (n : Int) := by
    rw [int_checked_ok _ (by unfold INT_MIN; omega) (by omega)]
    simp
  rw [PopBack_section_exec (cellsAt lk (n + 1) cells) slot _ _
    (by simp only [cellsAt]; omega) hl hc]
  rfl

theorem PopBack_section_empty (lk : Option Bool) (cells : List T) (slot : T) :
    (cellsAt lk 0 cells).PopBack_section slot = some (cellsAt lk 0 cells, slot, false) := by
  simp [PopBack_section, cellsAt]

theorem PopFront_section_cells (lk : Option Bool) (n : Nat) (cells : List T) (slot : T)
    (hn : n < cells.length) (hmax : (cells.length : Int) ≤ INT_MAX) :
    ∃ cells', (cellsAt lk (n + 1) cells).PopFront_section slot =
        some (cellsAt lk n cells', cells[0], true) ∧
      cells'.length = cells.length ∧
      ∀ j : Nat, cells'[j]? = if j < n then cells[j + 1]? else cells[j]? := by
  have hl : (cellsAt lk (n + 1) cells).load 0 = some (cells[0]) := by
    rw [load_cell _ cells rfl 0 0 rfl]
    exact List.getElem?_eq_getElem (by omega)
  have hc : int_checked (((n + 1 : Nat) : Int) - 1) = some (n : Int) := by
    rw [int_checked_ok _ (by unfold INT_MIN; omega) (by omega)]
    simp
  obtain ⟨cells', h1, h2, h3⟩ :=
    PopFront_loop_cells n 0 { cellsAt lk (n + 1) cells with list_count := (n : Int) } cells
      rfl (by omega)
  refine ⟨cells', ?_, h2, ?_⟩
  · rw [PopFront_section_exec (cellsAt lk (n + 1) cells) _ slot _ _
      (by simp only [cellsAt]; omega) hl hc (by simpa using h1)]
    simp [cellsAt, h2]
  · intro j
    rw [h3 j]
    by_cases c1 : j < n
    · rw [if_pos ⟨by omega, by omega⟩, if_pos c1]
    · rw [if_neg (by omega), if_neg c1]

theorem PopFront_section_empty (lk : Option Bool) (cells : List T) (slot : T) :
    (cellsAt lk 0 cells).PopFront_section slot = some (cellsAt lk 0 cells, slot, false) := by
  simp [PopFront_section, cellsAt]

theorem GetItem_section_cells (lk : Option Bool) (n : Nat) (cells : List T) (slot : T)
    (k : Nat) (hk : k < n) (hn : n ≤ cells.length) :
    (cellsAt lk n cells).GetItem_section ((k : Int) + 1) slot =
      some (cellsAt lk n cells, cells[k], true) := by
  have hl : (cellsAt lk n cells).load ((k : Int) + 1 - 1) = some (cells[k]) := by
    rw [load_cell _ cells rfl _ k (by ring)]
    exact List.getElem?_eq_getElem (by omega)
  exact GetItem_section_exec (cellsAt lk n cells) _ slot _ (by omega)
    (by simp only [cellsAt]; omega) hl

theorem GetItem_section_range (lk : Option Bool) (n : Nat) (cells : List T) (slot : T)
    (index : Int) (h : index ≤ 0 ∨ index > (n : Int)) :
    (cellsAt lk n cells).GetItem_section index slot =
      some (cellsAt lk n cells, slot, false) := by
  have h2 : index > (n : Int) ∨ index ≤ 0 := h.symm
  simp [GetItem_section, cellsAt, h2]

/-! ## Live contents after a shift -/

theorem take_after_PushBack (cells : List T) (n : Nat) (item : T) (hn : n < cells.length) :
    (cells.set n item).take (n + 1) = cells.take n ++ [item] := by
  apply List.ext_getElem?
  intro j
  rw [List.getElem?_take, List.getElem?_append, List.getElem?_set]
  have hlen : (cells.take n).length = n := by simp; omega
  rw [hlen]
  by_cases c1 : j < n
  · rw [if_pos (by omega), if_neg (by omega), if_pos c1, List.getElem?_take, if_pos c1]
  · by_cases c2 : j = n
    · subst c2
      simp [hn]
    · rw [if_neg (by omega), if_neg c1]
      have : 1 ≤ j - n := by omega
      exact (List.getElem?_eq_none (by simpa using this)).symm

theorem take_after_PushFront (cells cells' : List T) (n : Nat) (item : T)
    (h : ∀ j : Nat, cells'[j]? =
      if j = 0 then some item else if j ≤ n then cells[j - 1]? else cells[j]?) :
    cells'.take (n + 1) = item :: cells.take n := by
  apply List.ext_getElem?
  intro j
  rw [List.getElem?_take, List.getElem?_cons, h j, List.getElem?_take]
  by_cases c0 : j = 0
  · subst c0
    simp
  · rw [if_neg c0, if_neg c0]
    by_cases c1 : j ≤ n
    · rw [if_pos (by omega), if_pos c1, if_pos (by omega)]
    · rw [if_neg (by omega), if_neg (by omega)]

theorem take_after_PopFront (cells cells' : List T) (n : Nat) (hn : n < cells.length)
    (h : ∀ j : Nat, cells'[j]? = if j < n then cells[j + 1]? else cells[j]?) :
    cells.take (n + 1) = cells[0] :: cells'.take n := by
  apply List.ext_getElem?
  intro j
  rw [List.getElem?_take, List.getElem?_cons, List.getElem?_take]
  by_cases c0 : j = 0
  · subst c0
    rw [if_pos (by omega), if_pos rfl]
    exact List.getElem?_eq_getElem (by omega)
  · rw [if_neg c0]
    by_cases c1 : j < n + 1
    · rw [if_pos c1, if_pos (by omega), h (j - 1), if_pos (by omega)]
      congr 1
      omega
    · rw [if_neg c1, if_neg (by omega)]

theorem take_after_PopBack (cells : List T) (n : Nat) (hn : n < cells.length) :
    cells.take (n + 1) = cells.take n ++ [cells[n]] := by
  rw [List.take_succ, List.getElem?_eq_getElem hn]
  rfl

/-! ## A member call: test of the flag, lock, statements, unlock -/

theorem PushBack_run (q q1 : mem_queue T) (item : T) (b : Bool)
    (h1 : q.init_success = true) (h2 : q.lock = some false)
    (h3 : PushBack_section { q with lock := some true } item = some (q1, b))
    (h4 : q1.lock = some true) :
    q.PushBack item = some ({ q1 with lock := some false }, b) := by
  unfold PushBack
  rw [h1] at h3
  rw [h1, if_neg (by simp)]
  show (q.pthread_spin_lock).bind _ = _
  rw [lock_free q h2, h1]
  show (PushBack_section _ item).bind _ = _
  rw [h3]
  show (pthread_spin_unlock q1).bind _ = _
  rw [unlock_held q1 h4]
  rfl

theorem PushFront_run (q q1 : mem_queue T) (item : T) (b : Bool)
    (h1 : q.init_success = true) (h2 : q.lock = some false)
    (h3 : PushFront_section { q with lock := some true } item = some (q1, b))
    (h4 : q1.lock = some true) :
    q.PushFront item = some ({ q1 with lock := some false }, b) := by
  unfold PushFront
  rw [h1] at h3
  rw [h1, if_neg (by simp)]
  show (q.pthread_spin_lock).bind _ = _
  rw [lock_free q h2, h1]
  show (PushFront_section _ item).bind _ = _
  rw [h3]
  show (pthread_spin_unlock q1).bind _ = _
  rw [unlock_held q1 h4]
  rfl

theorem PopBack_run (q q1 : mem_queue T) (slot v : T) (b : Bool)
    (h1 : q.init_success = true) (h2 : q.lock = some false)
    (h3 : PopBack_section { q with lock := some true } slot = some (q1, v, b))
    (h4 : q1.lock = some true) :
    q.PopBack slot = some ({ q1 with lock := some false }, v, b) := by
  unfold PopBack
  rw [h1] at h3
  rw [h1, if_neg (by simp)]
  show (q.pthread_spin_lock).bind _ = _
  rw [lock_free q h2, h1]
  show (PopBack_section _ slot).bind _ = _
  rw [h3]
  show (pthread_spin_unlock q1).bind _ = _
  rw [unlock_held q1 h4]
  rfl

theorem PopFront_run (q q1 : mem_queue T) (slot v : T) (b : Bool)
    (h1 : q.init_success = true) (h2 : q.lock = some false)
    (h3 : PopFront_section { q with lock := some true } slot = some (q1, v, b))
    (h4 : q1.lock = some true) :
    q.PopFront slot = some ({ q1 with lock := some false }, v, b) := by
  unfold PopFront
  rw [h1] at h3
  rw [h1, if_neg (by simp)]
  show (q.pthread_spin_lock).bind _ = _
  rw [lock_free q h2, h1]
  show (PopFront_section _ slot).bind _ = _
  rw [h3]
  show (pthread_spin_unlock q1).bind _ = _
  rw [unlock_held q1 h4]
  rfl

theorem GetItem_run (q q1 : mem_queue T) (index : Int) (slot v : T) (b : Bool)
    (h1 : q.init_success = true) (h2 : q.lock = some false)
    (h3 : GetItem_section { q with lock := some true } index slot = some (q1, v, b))
    (h4 : q1.lock = some true) :
    q.GetItem index slot = some ({ q1 with lock := some false }, v, b) := by
  unfold GetItem
  rw [h1] at h3
  rw [h1, if_neg (by simp)]
  show (q.pthread_spin_lock).bind _ = _
  rw [lock_free q h2, h1]
  show (GetItem_section _ index slot).bind _ = _
  rw [h3]
  show (pthread_spin_unlock q1).bind _ = _
  rw [unlock_held q1 h4]
  rfl

/-! ## A member call when the lock cannot be taken -/

theorem lock_unusable (q : mem_queue T) (h : q.lock ≠ some false) :
    q.pthread_spin_lock = none := by
  cases hx : q.pthread_spin_lock with
  | none => rfl
  | some r =>
    have := (lock_none_iff q).mp (by rw [hx]; rfl)
    exact absurd this h

theorem PushBack_unusable (q : mem_queue T) (item : T)
    (h1 : q.init_success = true) (h2 : q.lock ≠ some false) : q.PushBack item = none := by
  unfold PushBack
  rw [h1, if_neg (by simp)]
  show (q.pthread_spin_lock).bind _ = _
  rw [lock_unusable q h2]
  rfl

theorem PushFront_unusable (q : mem_queue T) (item : T)
    (h1 : q.init_success = true) (h2 : q.lock ≠ some false) : q.PushFront item = none := by
  unfold PushFront
  rw [h1, if_neg (by simp)]
  show (q.pthread_spin_lock).bind _ = _
  rw [lock_unusable q h2]
  rfl

theorem PopBack_unusable (q : mem_queue T) (slot : T)
    (h1 : q.init_success = true) (h2 : q.lock ≠ some false) : q.PopBack slot = none := by
  unfold PopBack
  rw [h1, if_neg (by simp)]
  show (q.pthread_spin_lock).bind _ = _
  rw [lock_unusable q h2]
  rfl

theorem PopFront_unusable (q : mem_queue T) (slot : T)
    (h1 : q.init_success = true) (h2 : q.lock ≠ some false) : q.PopFront slot = none := by
  unfold PopFront
  rw [h1, if_neg (by simp)]
  show (q.pthread_spin_lock).bind _ = _
  rw [lock_unusable q h2]
  rfl

theorem GetItem_unusable (q : mem_queue T) (index : Int) (slot : T)
    (h1 : q.init_success = true) (h2 : q.lock ≠ some false) :
    q.GetItem index slot = none := by
  unfold GetItem
  rw [h1, if_neg (by simp)]
  show (q.pthread_spin_lock).bind _ = _
  rw [lock_unusable q h2]
  rfl

theorem Count_unusable (q : mem_queue T) (h2 : q.lock ≠ some false) : q.Count = none := by
  unfold Count
  show (q.pthread_spin_lock).bind _ = _
  rw [lock_unusable q h2]
  rfl

theorem Init_unusable (q : mem_queue T) (count : Int) (outcome : Option (Nat → T))
    (h2 : q.lock ≠ some false) : q.Init count outcome = none := by
  unfold Init
  show (q.pthread_spin_lock).bind _ = _
  rw [lock_unusable q h2]
  rfl

/-! ## Each member on an initialised container with a free lock -/

theorem PushBack_ofCells (n : Nat) (cells : List T) (item : T) (hn : n < cells.length)
    (hmax : (cells.length : Int) ≤ INT_MAX) :
    (ofCells n cells).PushBack item = some (ofCells (n + 1) (cells.set n item), true) :=
  PushBack_run (ofCells n cells) _ item true rfl rfl
    (PushBack_section_cells (some true) n cells item hn hmax) rfl

theorem PushBack_full (n : Nat) (cells : List T) (item : T) (hn : n = cells.length) :
    (ofCells n cells).PushBack item = some (ofCells n cells, false) :=
  PushBack_run (ofCells n cells) _ item false rfl rfl
    (PushBack_section_full (some true) n cells item hn) rfl

theorem PushFront_ofCells (n : Nat) (cells : List T) (item : T) (hn : n < cells.length)
    (hmax : (cells.length : Int) ≤ INT_MAX) :
    ∃ cells', (ofCells n cells).PushFront item = some (ofCells (n + 1) cells', true) ∧
      cells'.length = cells.length ∧
      ∀ j : Nat, cells'[j]? =
        if j = 0 then some item else if j ≤ n then cells[j - 1]? else cells[j]? := by
  obtain ⟨cells', h1, h2, h3⟩ := PushFront_section_cells (some true) n cells item hn hmax
  exact ⟨cells', PushFront_run (ofCells n cells) _ item true rfl rfl h1 rfl, h2, h3⟩

theorem PushFront_full (n : Nat) (cells : List T) (item : T) (hn : n = cells.length) :
    (ofCells n cells).PushFront item = some (ofCells n cells, false) :=
  PushFront_run (ofCells n cells) _ item false rfl rfl
    (PushFront_section_full (some true) n cells item hn) rfl

theorem PopBack_ofCells (n : Nat) (cells : List T) (slot : T) (hn : n < cells.length)
    (hmax : (cells.length : Int) ≤ INT_MAX) :
    (ofCells (n + 1) cells).PopBack slot = some (ofCells n cells, cells[n], true) :=
  PopBack_run (ofCells (n + 1) cells) _ slot _ true rfl rfl
    (PopBack_section_cells (some true) n cells slot hn hmax) rfl

theorem PopBack_empty (cells : List T) (slot : T) :
    (ofCells 0 cells).PopBack slot = some (ofCells 0 cells, slot, false) :=
  PopBack_run (ofCells 0 cells) _ slot _ false rfl rfl
    (PopBack_section_empty (some true) cells slot) rfl

theorem PopFront_ofCells (n : Nat) (cells : List T) (slot : T) (hn : n < cells.length)
    (hmax : (cells.length : Int) ≤ INT_MAX) :
    ∃ cells', (ofCells (n + 1) cells).PopFront slot =
        some (ofCells n cells', cells[0], true) ∧
      cells'.length = cells.length ∧
      ∀ j : Nat, cells'[j]? = if j < n then cells[j + 1]? else cells[j]? := by
  obtain ⟨cells', h1, h2, h3⟩ := PopFront_section_cells (some true) n cells slot hn hmax
  exact ⟨cells', PopFront_run (ofCells (n + 1) cells) _ slot _ true rfl rfl h1 rfl, h2, h3⟩

theorem PopFront_empty (cells : List T) (slot : T) :
    (ofCells 0 cells).PopFront slot = some (ofCells 0 cells, slot, false) :=
  PopFront_run (ofCells 0 cells) _ slot _ false rfl rfl
    (PopFront_section_empty (some true) cells slot) rfl

theorem GetItem_ofCells (n : Nat) (cells : List T) (slot : T) (k : Nat)
    (hk : k < n) (hn : n ≤ cells.length) :
    (ofCells n cells).GetItem ((k : Int) + 1) slot = some (ofCells n cells, cells[k], true) :=
  GetItem_run (ofCells n cells) _ _ slot _ true rfl rfl
    (GetItem_section_cells (some true) n cells slot k hk hn) rfl

theorem GetItem_range (n : Nat) (cells : List T) (slot : T) (index : Int)
    (h : index ≤ 0 ∨ index > (n : Int)) :
    (ofCells n cells).GetItem index slot = some (ofCells n cells, slot, false) :=
  GetItem_run (ofCells n cells) _ _ slot _ false rfl rfl
    (GetItem_section_range (some true) n cells slot index h) rfl

theorem Count_free (q : mem_queue T) (h : q.lock = some false) :
    q.Count = some (q, q.list_count) := by
  obtain ⟨ini, mx, cnt, l, lk⟩ := q
  simp only at h
  subst h
  rfl

/-! ## With a free lock the invariant is kept by every call -/

theorem step_Ready (q : mem_queue T) (c : Call T) (h : Ready q) :
    ∃ q', q.step c = some q' ∧ Ready q' ∧ q'.list_max = q.list_max := by
  obtain ⟨n, cells, rfl, hn, hmax⟩ := h.toCells
  cases c with
  | PushBack item =>
    by_cases c1 : n < cells.length
    · refine ⟨ofCells (n + 1) (cells.set n item), ?_, ?_, ?_⟩
      · simp [step, PushBack_ofCells n cells item c1 hmax]
      · exact Ready_ofCells _ _ (by simp; omega) (by simpa using hmax)
      · simp [ofCells]
    · refine ⟨ofCells n cells, ?_, Ready_ofCells _ _ hn hmax, rfl⟩
      simp [step, PushBack_full n cells item (by omega)]
  | PushFront item =>
    by_cases c1 : n < cells.length
    · obtain ⟨cells', h1, h2, _⟩ := PushFront_ofCells n cells item c1 hmax
      refine ⟨ofCells (n + 1) cells', ?_, ?_, ?_⟩
      · simp [step, h1]
      · exact Ready_ofCells _ _ (by omega) (by rw [h2]; exact hmax)
      · simp [ofCells, h2]
    · refine ⟨ofCells n cells, ?_, Ready_ofCells _ _ hn hmax, rfl⟩
      simp [step, PushFront_full n cells item (by omega)]
  | PopBack slot =>
    cases n with
    | zero =>
      refine ⟨ofCells 0 cells, ?_, Ready_ofCells _ _ hn hmax, rfl⟩
      simp [step, PopBack_empty]
    | succ n =>
      refine ⟨ofCells n cells, ?_, Ready_ofCells _ _ (by omega) hmax, rfl⟩
      simp [step, PopBack_ofCells n cells slot (by omega) hmax]
  | PopFront slot =>
    cases n with
    | zero =>
      refine ⟨ofCells 0 cells, ?_, Ready_ofCells _ _ hn hmax, rfl⟩
      simp [step, PopFront_empty]
    | succ n =>
      obtain ⟨cells', h1, h2, _⟩ := PopFront_ofCells n cells slot (by omega) hmax
      refine ⟨ofCells n cells', ?_, ?_, ?_⟩
      · simp [step, h1]
      · exact Ready_ofCells _ _ (by omega) (by rw [h2]; exact hmax)
      · simp [ofCells, h2]
  | GetItem index slot =>
    refine ⟨ofCells n cells, ?_, Ready_ofCells _ _ hn hmax, rfl⟩
    by_cases c1 : index ≤ 0 ∨ index > (n : Int)
    · simp [step, GetItem_range n cells slot index c1]
    · obtain ⟨k, hk⟩ := Int.eq_ofNat_of_zero_le (show 0 ≤ index - 1 by omega)
      have hidx : index = (k : Int) + 1 := by omega
      subst hidx
      simp [step, GetItem_ofCells n cells slot k (by omega) hn]
  | Count =>
    refine ⟨ofCells n cells, ?_, Ready_ofCells _ _ hn hmax, rfl⟩
    simp [step, Count_free (ofCells n cells) rfl]

theorem run_Ready (calls : List (Call T)) :
    ∀ q : mem_queue T, Ready q →
      ∃ q', q.run calls = some q' ∧ Ready q' ∧ q'.list_max = q.list_max := by
  induction calls with
  | nil =>
    intro q h
    exact ⟨q, rfl, h, rfl⟩
  | cons c cs ih =>
    intro q h
    obtain ⟨q1, h1, h2, h3⟩ := step_Ready q c h
    obtain ⟨q2, h4, h5, h6⟩ := ih q1 h2
    refine ⟨q2, ?_, h5, h6.trans h3⟩
    simp [run, h1, h4]

/-! ## Callers that push and pop in a row, with a free lock -/

theorem pushBackAll_ofCells (xs : List T) :
    ∀ (n : Nat) (cells : List T), n + xs.length ≤ cells.length →
      (cells.length : Int) ≤ INT_MAX →
      ∃ cells', (ofCells n cells).pushBackAll xs =
          some (ofCells (n + xs.length) cells', List.replicate xs.length true) ∧
        cells'.length = cells.length ∧
        cells'.take (n + xs.length) = cells.take n ++ xs := by
  induction xs with
  | nil =>
    intro n cells _ _
    exact ⟨cells, rfl, rfl, by simp⟩
  | cons x xs ih =>
    intro n cells hn hmax
    have hlen : (x :: xs).length = xs.length + 1 := rfl
    rw [hlen] at hn
    have hstep := PushBack_ofCells n cells x (by omega) hmax
    obtain ⟨cells', h1, h2, h3⟩ :=
      ih (n + 1) (cells.set n x) (by simp; omega) (by simpa using hmax)
    refine ⟨cells', ?_, by simpa using h2, ?_⟩
    · simp only [pushBackAll, hstep, h1, Option.bind_eq_bind, Option.some_bind]
      simp [List.replicate_succ, Nat.add_assoc, Nat.add_comm 1]
    · have e : n + (x :: xs).length = n + 1 + xs.length := by rw [hlen]; omega
      rw [e, h3, take_after_PushBack cells n x (by omega)]
      simp

theorem popFrontTimes_ofCells (m : Nat) :
    ∀ (cells : List T) (slot : T), m ≤ cells.length → (cells.length : Int) ≤ INT_MAX →
      ∃ cells', (ofCells m cells).popFrontTimes m slot =
        some (ofCells 0 cells', cells.take m, List.replicate m true) ∧
        cells'.length = cells.length := by
  induction m with
  | zero =>
    intro cells slot _ _
    exact ⟨cells, rfl, rfl⟩
  | succ m ih =>
    intro cells slot hm hmax
    obtain ⟨mid, h1, h2, h3⟩ := PopFront_ofCells m cells slot (by omega) hmax
    obtain ⟨cells', h4, h5⟩ := ih mid (cells[0]) (by omega) (by rw [h2]; exact hmax)
    refine ⟨cells', ?_, h5.trans h2⟩
    simp only [popFrontTimes, h1, h4, Option.bind_eq_bind, Option.some_bind]
    rw [take_after_PopFront cells mid m (by omega) h3]
    simp [List.replicate_succ]

theorem popBackTimes_ofCells (m : Nat) :
    ∀ (cells : List T) (slot : T), m ≤ cells.length → (cells.length : Int) ≤ INT_MAX →
      (ofCells m cells).popBackTimes m slot =
        some (ofCells 0 cells, (cells.take m).reverse, List.replicate m true) := by
  induction m with
  | zero =>
    intro cells slot _ _
    rfl
  | succ m ih =>
    intro cells slot hm hmax
    have h1 := PopBack_ofCells m cells slot (by omega) hmax
    have h4 := ih cells (cells[m]) (by omega) hmax
    simp only [popBackTimes, h1, h4, Option.bind_eq_bind, Option.some_bind]
    rw [take_after_PopBack cells m (by omega), List.reverse_append]
    simp [List.replicate_succ]

theorem take_set_at (cells : List T) (n : Nat) (item : T) :
    (cells.set n item).take n = cells.take n := by
  apply List.ext_getElem?
  intro j
  rw [List.getElem?_take, List.getElem?_take]
  by_cases c1 : j < n
  · rw [if_pos c1, if_pos c1, List.getElem?_set_ne (by omega)]
  · rw [if_neg c1, if_neg c1]

theorem take_shift_there_and_back (cells mid cells' : List T) (n : Nat) (item : T)
    (h1 : ∀ j : Nat, mid[j]? =
      if j = 0 then some item else if j ≤ n then cells[j - 1]? else cells[j]?)
    (h2 : ∀ j : Nat, cells'[j]? = if j < n then mid[j + 1]? else mid[j]?) :
    cells'.take n = cells.take n := by
  apply List.ext_getElem?
  intro j
  rw [List.getElem?_take, List.getElem?_take]
  by_cases c1 : j < n
  · rw [if_pos c1, if_pos c1, h2 j, if_pos c1, h1 (j + 1), if_neg (by omega),
      if_pos (by omega)]
    rfl
  · rw [if_neg c1, if_neg c1]

/-! ## Pushing and popping at either end -/

theorem pushAt_ofCells (n : Nat) (cells : List T) (side : Side) (item : T)
    (hn : n < cells.length) (hmax : (cells.length : Int) ≤ INT_MAX) :
    ∃ cells', (ofCells n cells).pushAt side item = some (ofCells (n + 1) cells', true) ∧
      cells'.length = cells.length := by
  cases side with
  | back =>
    exact ⟨cells.set n item, PushBack_ofCells n cells item hn hmax, by simp⟩
  | front =>
    obtain ⟨cells', h1, h2, _⟩ := PushFront_ofCells n cells item hn hmax
    exact ⟨cells', h1, h2⟩

theorem pushAt_full (cells : List T) (side : Side) (item : T) :
    (ofCells cells.length cells).pushAt side item =
      some (ofCells cells.length cells, false) := by
  cases side with
  | back => exact PushBack_full cells.length cells item rfl
  | front => exact PushFront_full cells.length cells item rfl

theorem popAt_ofCells (n : Nat) (cells : List T) (side : Side) (slot : T)
    (hn : n < cells.length) (hmax : (cells.length : Int) ≤ INT_MAX) :
    ∃ cells' out, (ofCells (n + 1) cells).popAt side slot =
        some (ofCells n cells', out, true) ∧
      cells'.length = cells.length := by
  cases side with
  | back =>
    exact ⟨cells, cells[n], PopBack_ofCells n cells slot hn hmax, rfl⟩
  | front =>
    obtain ⟨cells', h1, h2, _⟩ := PopFront_ofCells n cells slot hn hmax
    exact ⟨cells', cells[0], h1, h2⟩

theorem pushesAt_ofCells (ps : List (Side × T)) :
    ∀ (n : Nat) (cells : List T), n + ps.length ≤ cells.length →
      (cells.length : Int) ≤ INT_MAX →
      ∃ cells', (ofCells n cells).pushesAt ps =
          some (ofCells (n + ps.length) cells', List.replicate ps.length true) ∧
        cells'.length = cells.length := by
  induction ps with
  | nil =>
    intro n cells _ _
    exact ⟨cells, rfl, rfl⟩
  | cons p ps ih =>
    intro n cells hn hmax
    have hlen : (p :: ps).length = ps.length + 1 := rfl
    rw [hlen] at hn
    obtain ⟨mid, h1, h2⟩ := pushAt_ofCells n cells p.1 p.2 (by omega) hmax
    obtain ⟨cells', h3, h4⟩ := ih (n + 1) mid (by omega) (by rw [h2]; exact hmax)
    refine ⟨cells', ?_, h4.trans h2⟩
    simp only [pushesAt, h1, h3, Option.bind_eq_bind, Option.some_bind]
    simp [List.replicate_succ, Nat.add_assoc, Nat.add_comm 1]

/-! ## What the members do when the lock is free -/

/-- Given a free lock: queue order. On an empty initialised container whose
capacity is at least the length of `xs`, pushing the items of `xs` in order
with `PushBack` and then calling `PopFront` that many times makes every call
return true, yields the items of `xs` in the same order and leaves the count
at `0`. -/
theorem PushBack_then_PopFront_is_fifo_with_lock (q : mem_queue T) (xs : List T) (slot : T)
    (h : Ready q) (h0 : q.list_count = 0) (hlen : (xs.length : Int) ≤ q.list_max) :
    ∃ q1 q2, q.pushBackAll xs = some (q1, List.replicate xs.length true) ∧
      q1.popFrontTimes xs.length slot = some (q2, xs, List.replicate xs.length true) ∧
      q2.list_count = 0 := by
  obtain ⟨n, cells, rfl, hn, hmax⟩ := h.toCells
  have hz : n = 0 := by simpa [ofCells] using h0
  subst hz
  have hfit : 0 + xs.length ≤ cells.length := by
    simp only [ofCells] at hlen
    omega
  obtain ⟨mid, h1, h2, h3⟩ := pushBackAll_ofCells xs 0 cells hfit hmax
  rw [Nat.zero_add] at h1 h3
  obtain ⟨cells', h4, _⟩ :=
    popFrontTimes_ofCells xs.length mid slot (by omega) (by rw [h2]; exact hmax)
  refine ⟨ofCells xs.length mid, ofCells 0 cells', h1, ?_, rfl⟩
  rw [h4, h3]
  simp

/-- Given a free lock: stack order. On an empty initialised container whose
capacity is at least the length of `xs`, pushing the items of `xs` in order
with `PushBack` and then calling `PopBack` that many times makes every call
return true, yields the items of `xs` in reverse order and leaves the count at
`0`. -/
theorem PushBack_then_PopBack_is_lifo_with_lock (q : mem_queue T) (xs : List T) (slot : T)
    (h : Ready q) (h0 : q.list_count = 0) (hlen : (xs.length : Int) ≤ q.list_max) :
    ∃ q1 q2, q.pushBackAll xs = some (q1, List.replicate xs.length true) ∧
      q1.popBackTimes xs.length slot =
        some (q2, xs.reverse, List.replicate xs.length true) ∧
      q2.list_count = 0 := by
  obtain ⟨n, cells, rfl, hn, hmax⟩ := h.toCells
  have hz : n = 0 := by simpa [ofCells] using h0
  subst hz
  have hfit : 0 + xs.length ≤ cells.length := by
    simp only [ofCells] at hlen
    omega
  obtain ⟨mid, h1, h2, h3⟩ := pushBackAll_ofCells xs 0 cells hfit hmax
  rw [Nat.zero_add] at h1 h3
  have h4 := popBackTimes_ofCells xs.length mid slot (by omega) (by rw [h2]; exact hmax)
  refine ⟨ofCells xs.length mid, ofCells 0 mid, h1, ?_, rfl⟩
  rw [h4, h3]
  simp

/-- Given a free lock: round trip at either end. On a initialised container that
is not full, `PushBack(x)` followed by `PopBack` returns true and hands back
`x`, and `PushFront(x)` followed by `PopFront` returns true and hands back
`x`; either way the count and the live elements are as before the push. -/
theorem push_then_pop_round_trip_with_lock (q : mem_queue T) (x slot : T)
    (h : Ready q) (hlt : q.list_count < q.list_max) :
    (∃ q1 q2, q.PushBack x = some (q1, true) ∧ q1.PopBack slot = some (q2, x, true) ∧
      q2.list_count = q.list_count ∧ q2.live = q.live) ∧
    (∃ q1 q2, q.PushFront x = some (q1, true) ∧ q1.PopFront slot = some (q2, x, true) ∧
      q2.list_count = q.list_count ∧ q2.live = q.live) := by
  obtain ⟨n, cells, rfl, hn, hmax⟩ := h.toCells
  have hn1 : n < cells.length := by
    simp only [ofCells] at hlt
    omega
  constructor
  · have hlen : n < (cells.set n x).length := by simpa using hn1
    have hpop := PopBack_ofCells n (cells.set n x) slot hlen (by simpa using hmax)
    refine ⟨ofCells (n + 1) (cells.set n x), ofCells n (cells.set n x),
      PushBack_ofCells n cells x hn1 hmax, ?_, rfl, ?_⟩
    · rw [hpop]
      simp
    · rw [live_ofCells, live_ofCells, take_set_at]
  · obtain ⟨mid, h1, h2, h3⟩ := PushFront_ofCells n cells x hn1 hmax
    obtain ⟨cells', h4, h5, h6⟩ :=
      PopFront_ofCells n mid slot (by omega) (by rw [h2]; exact hmax)
    have hx : mid[0]? = some x := by rw [h3 0, if_pos rfl]
    have hx2 : mid[0] = x := by
      rw [List.getElem?_eq_getElem (by omega)] at hx
      exact Option.some.inj hx
    refine ⟨ofCells (n + 1) mid, ofCells n cells', h1, ?_, rfl, ?_⟩
    · rw [h4, hx2]
    · rw [live_ofCells, live_ofCells]
      exact take_shift_there_and_back cells mid cells' n x h3 h6

/-- Given a free lock: `PushBack` on a initialised container. When the count
equals the capacity it returns false and the whole state (count and buffer
included) is unchanged. Otherwise it returns true, `list[old count]` is the
item, the count is the old count plus one, the cells `list[0 .. old count)`
are unchanged, and the live elements are the old ones followed by the item. -/
theorem PushBack_contract_with_lock (q : mem_queue T) (item : T) (h : Ready q) :
    (q.list_count = q.list_max → q.PushBack item = some (q, false)) ∧
    (q.list_count ≠ q.list_max →
      ∃ q', q.PushBack item = some (q', true) ∧
        q'.load q.list_count = some item ∧
        q'.list_count = q.list_count + 1 ∧
        (∀ i : Int, 0 ≤ i → i < q.list_count → q'.load i = q.load i) ∧
        q'.live = q.live ++ [item]) := by
  obtain ⟨n, cells, rfl, hn, hmax⟩ := h.toCells
  constructor
  · intro hfull
    exact PushBack_full n cells item (by simp only [ofCells] at hfull; omega)
  · intro hroom
    have hn1 : n < cells.length := by
      simp only [ofCells] at hroom
      omega
    refine ⟨_, PushBack_ofCells n cells item hn1 hmax, ?_, ?_, ?_, ?_⟩
    · show (ofCells (n + 1) (cells.set n item)).load (n : Int) = some item
      rw [load_ofCells]
      simp [hn1]
    · simp [ofCells]
    · intro i hi0 hi1
      obtain ⟨k, rfl⟩ := Int.eq_ofNat_of_zero_le hi0
      have hk : k < n := by
        simp only [ofCells] at hi1
        omega
      rw [load_ofCells, load_ofCells, List.getElem?_set_ne (by omega)]
    · rw [live_ofCells, live_ofCells, take_after_PushBack cells n item hn1]

/-- Given a free lock: `PushFront` on a initialised container. When the count
equals the capacity it returns false and the whole state is unchanged.
Otherwise it returns true, `list[0]` is the item, `list[i]` is the old `list[i
- 1]` for every `i` from 1 to the old count, the count is the old count plus
one, and the live elements are the item followed by the old ones in their old
order. -/
theorem PushFront_contract_with_lock (q : mem_queue T) (item : T) (h : Ready q) :
    (q.list_count = q.list_max → q.PushFront item = some (q, false)) ∧
    (q.list_count ≠ q.list_max →
      ∃ q', q.PushFront item = some (q', true) ∧
        q'.load 0 = some item ∧
        (∀ i : Int, 1 ≤ i → i ≤ q.list_count → q'.load i = q.load (i - 1)) ∧
        q'.list_count = q.list_count + 1 ∧
        q'.live = item :: q.live) := by
  obtain ⟨n, cells, rfl, hn, hmax⟩ := h.toCells
  constructor
  · intro hfull
    exact PushFront_full n cells item (by simp only [ofCells] at hfull; omega)
  · intro hroom
    have hn1 : n < cells.length := by
      simp only [ofCells] at hroom
      omega
    obtain ⟨cells', h1, h2, h3⟩ := PushFront_ofCells n cells item hn1 hmax
    refine ⟨_, h1, ?_, ?_, ?_, ?_⟩
    · rw [load_ofCells_int _ _ 0 (le_refl 0)]
      simpa using h3 0
    · intro i hi0 hi1
      obtain ⟨k, hk⟩ := Int.eq_ofNat_of_zero_le (show 0 ≤ i - 1 by omega)
      have hi : i = ((k + 1 : Nat) : Int) := by
        push_cast
        omega
      subst hi
      have hkn : k + 1 ≤ n := by
        simp only [ofCells] at hi1
        omega
      rw [load_ofCells, load_cell _ cells rfl _ k (by push_cast; ring), h3 (k + 1),
        if_neg (by omega), if_pos hkn]
      rfl
    · simp [ofCells]
    · rw [live_ofCells, live_ofCells, take_after_PushFront cells cells' n item h3]

/-- Given a free lock: `PopFront` on a initialised container. When the count is 0
it returns false and the output slot and the whole state are unchanged.
Otherwise it returns true, the output slot holds the old `list[0]`, the count
is the old count minus one, `list[i]` is the old `list[i + 1]` for every `i`
below the new count, and the old live elements are the output followed by the
new live elements. -/
theorem PopFront_contract_with_lock (q : mem_queue T) (slot : T) (h : Ready q) :
    (q.list_count = 0 → q.PopFront slot = some (q, slot, false)) ∧
    (q.list_count ≠ 0 →
      ∃ q' out, q.PopFront slot = some (q', out, true) ∧
        q.load 0 = some out ∧
        q'.list_count = q.list_count - 1 ∧
        (∀ i : Int, 0 ≤ i → i < q'.list_count → q'.load i = q.load (i + 1)) ∧
        q.live = out :: q'.live) := by
  obtain ⟨n, cells, rfl, hn, hmax⟩ := h.toCells
  cases n with
  | zero =>
    refine ⟨fun _ => PopFront_empty cells slot, fun hne => ?_⟩
    exact absurd rfl hne
  | succ n =>
    refine ⟨fun he => ?_, fun _ => ?_⟩
    · simp only [ofCells] at he
      omega
    · obtain ⟨cells', h1, h2, h3⟩ := PopFront_ofCells n cells slot (by omega) hmax
      refine ⟨ofCells n cells', cells[0], h1, ?_, ?_, ?_, ?_⟩
      · rw [load_ofCells_int _ _ 0 (le_refl 0)]
        exact List.getElem?_eq_getElem (by omega)
      · simp [ofCells]
      · intro i hi0 hi1
        obtain ⟨k, rfl⟩ := Int.eq_ofNat_of_zero_le hi0
        have hk : k < n := by
          simp only [ofCells] at hi1
          omega
        rw [load_ofCells, load_cell _ cells rfl _ (k + 1) (by push_cast; ring), h3 k,
          if_pos hk]
      · rw [live_ofCells, live_ofCells]
        exact take_after_PopFront cells cells' n (by omega) h3

/-- Given a free lock: `PopBack` on a initialised container. When the count is 0
it returns false and the output slot and the whole state are unchanged.
Otherwise it returns true, the output slot holds the old `list[count - 1]`,
the count is the old count minus one, no cell of the buffer changes (so
`list[0 .. new count)` is unchanged), and the old live elements are the new
ones followed by the output. -/
theorem PopBack_contract_with_lock (q : mem_queue T) (slot : T) (h : Ready q) :
    (q.list_count = 0 → q.PopBack slot = some (q, slot, false)) ∧
    (q.list_count ≠ 0 →
      ∃ q' out, q.PopBack slot = some (q', out, true) ∧
        q.load (q.list_count - 1) = some out ∧
        q'.list_count = q.list_count - 1 ∧
        q'.list = q.list ∧
        (∀ i : Int, 0 ≤ i → i < q'.list_count → q'.load i = q.load i) ∧
        q.live = q'.live ++ [out]) := by
  obtain ⟨n, cells, rfl, hn, hmax⟩ := h.toCells
  cases n with
  | zero =>
    refine ⟨fun _ => PopBack_empty cells slot, fun hne => ?_⟩
    exact absurd rfl hne
  | succ n =>
    refine ⟨fun he => ?_, fun _ => ?_⟩
    · simp only [ofCells] at he
      omega
    · refine ⟨ofCells n cells, cells[n],
        PopBack_ofCells n cells slot (by omega) hmax, ?_, ?_, rfl, ?_, ?_⟩
      · rw [load_cell _ cells rfl _ n (by simp [ofCells])]
        exact List.getElem?_eq_getElem (by omega)
      · simp [ofCells]
      · intro i _ _
        rfl
      · rw [live_ofCells, live_ofCells]
        exact take_after_PopBack cells n (by omega)

/-- Given a free lock: `GetItem` counts from 1. On a initialised container and for
every integer index the call leaves the whole state unchanged; it returns
false with the output slot unmodified exactly when `index <= 0` or `index >
count`, and otherwise returns true with the output slot holding `list[index -
1]`. -/
theorem GetItem_contract_with_lock (q : mem_queue T) (index : Int) (slot : T) (h : Ready q) :
    ∃ out back, q.GetItem index slot = some (q, out, back) ∧
      ((back = false ∧ out = slot) ↔ (index ≤ 0 ∨ index > q.list_count)) ∧
      (back = false ↔ (index ≤ 0 ∨ index > q.list_count)) ∧
      (¬ (index ≤ 0 ∨ index > q.list_count) →
        back = true ∧ q.load (index - 1) = some out) := by
  obtain ⟨n, cells, rfl, hn, hmax⟩ := h.toCells
  by_cases c1 : index ≤ 0 ∨ index > (n : Int)
  · refine ⟨slot, false, GetItem_range n cells slot index c1, ?_, ?_, ?_⟩
    · exact ⟨fun _ => c1, fun _ => ⟨rfl, rfl⟩⟩
    · exact ⟨fun _ => c1, fun _ => rfl⟩
    · intro hin
      exact absurd c1 hin
  · obtain ⟨k, hk⟩ := Int.eq_ofNat_of_zero_le (show 0 ≤ index - 1 by omega)
    have hidx : index = (k : Int) + 1 := by omega
    subst hidx
    have hkn : k < n := by omega
    refine ⟨cells[k], true, GetItem_ofCells n cells slot k hkn hn, ?_, ?_, ?_⟩
    · constructor
      · intro hf
        exact absurd hf.1 (by simp)
      · intro hout
        exact absurd hout c1
    · constructor
      · intro hf
        exact absurd hf (by simp)
      · intro hout
        exact absurd hout c1
    · intro _
      refine ⟨rfl, ?_⟩
      rw [load_cell _ cells rfl _ k (by ring)]
      exact List.getElem?_eq_getElem (by omega)

/-- Given a free lock: on a initialised container with at least one element,
`GetItem(1)` succeeds with the value a `PopFront` made right after it hands
back (the first live element), and `GetItem(count)` succeeds with the value a
`PopBack` made right after it hands back (the last live element). -/
theorem GetItem_front_and_back_with_lock (q : mem_queue T) (slot slot' : T)
    (h : Ready q) (h1 : 1 ≤ q.list_count) :
    (∃ front q1, q.GetItem 1 slot = some (q, front, true) ∧
      q.PopFront slot' = some (q1, front, true) ∧ q.live.head? = some front) ∧
    (∃ back q2, q.GetItem q.list_count slot = some (q, back, true) ∧
      q.PopBack slot' = some (q2, back, true) ∧ q.live.getLast? = some back) := by
  obtain ⟨n, cells, rfl, hn, hmax⟩ := h.toCells
  cases n with
  | zero =>
    simp only [ofCells] at h1
    omega
  | succ n =>
    constructor
    · obtain ⟨cells', h2, _, h3⟩ := PopFront_ofCells n cells slot' (by omega) hmax
      have hg := GetItem_ofCells (n + 1) cells slot 0 (by omega) hn
      refine ⟨cells[0], ofCells n cells', ?_, h2, ?_⟩
      · simpa using hg
      · rw [live_ofCells, take_after_PopFront cells cells' n (by omega) h3]
        rfl
    · have hg := GetItem_ofCells (n + 1) cells slot n (by omega) hn
      refine ⟨cells[n], ofCells n cells, ?_,
        PopBack_ofCells n cells slot' (by omega) hmax, ?_⟩
      · have e : (ofCells (n + 1) cells).list_count = (n : Int) + 1 := by
          simp [ofCells]
        rw [e]
        exact hg
      · rw [live_ofCells, take_after_PopBack cells n (by omega)]
        exact List.getLast?_concat _

/-- Given a free lock: capacity boundary. On an empty initialised container of
capacity `C >= 1`, `C` pushes, each at either end, all return true; the next
push at either end returns false and leaves the whole state, stored elements
included, as it was; after one pop at either end, which returns true, the next
push at either end returns true. With `C = 1`: one `PushBack` succeeds, a
second one fails, and after a `PopBack` or `PopFront` a `PushBack` or
`PushFront` succeeds again. -/
theorem capacity_boundary_with_lock (q : mem_queue T) (ps : List (Side × T))
    (s1 s2 s3 : Side) (x y slot : T)
    (h : Ready q) (h0 : q.list_count = 0) (hC : 1 ≤ q.list_max)
    (hlen : (ps.length : Int) = q.list_max) :
    ∃ q1, q.pushesAt ps = some (q1, List.replicate ps.length true) ∧
      q1.list_count = q.list_max ∧
      q1.pushAt s1 x = some (q1, false) ∧
      ∃ q2 out, q1.popAt s2 slot = some (q2, out, true) ∧
        ∃ q3, q2.pushAt s3 y = some (q3, true) := by
  obtain ⟨n, cells, rfl, hn, hmax⟩ := h.toCells
  have hz : n = 0 := by simpa [ofCells] using h0
  subst hz
  have hfit : ps.length = cells.length := by
    simp only [ofCells] at hlen
    omega
  have hpos : 1 ≤ cells.length := by
    simp only [ofCells] at hC
    omega
  obtain ⟨mid, h1, h2⟩ := pushesAt_ofCells ps 0 cells (by omega) hmax
  rw [Nat.zero_add, hfit, ← h2] at h1
  have hmid : (mid.length : Int) ≤ INT_MAX := by rw [h2]; exact hmax
  obtain ⟨k, hk⟩ : ∃ k, mid.length = k + 1 := ⟨mid.length - 1, by omega⟩
  obtain ⟨cells2, out, h3, h4⟩ := popAt_ofCells k mid s2 slot (by omega) hmid
  obtain ⟨cells3, h5, _⟩ :=
    pushAt_ofCells k cells2 s3 y (by omega) (by rw [h4]; exact hmid)
  refine ⟨ofCells mid.length mid, ?_, ?_, pushAt_full mid s1 x,
    ofCells k cells2, out, ?_, ofCells (k + 1) cells3, h5⟩
  · rw [h1, hfit, h2]
  · simp [ofCells, h2]
  · rw [hk]
    exact h3

/-! ## Before initialisation succeeds: the test of the flag comes first -/

theorem PushBack_uninit (q : mem_queue T) (item : T) (h : q.init_success = false) :
    q.PushBack item = some (q, false) := by
  unfold PushBack
  rw [h]
  rfl

theorem PushFront_uninit (q : mem_queue T) (item : T) (h : q.init_success = false) :
    q.PushFront item = some (q, false) := by
  unfold PushFront
  rw [h]
  rfl

theorem PopBack_uninit (q : mem_queue T) (slot : T) (h : q.init_success = false) :
    q.PopBack slot = some (q, slot, false) := by
  unfold PopBack
  rw [h]
  rfl

theorem PopFront_uninit (q : mem_queue T) (slot : T) (h : q.init_success = false) :
    q.PopFront slot = some (q, slot, false) := by
  unfold PopFront
  rw [h]
  rfl

theorem GetItem_uninit (q : mem_queue T) (index : Int) (slot : T)
    (h : q.init_success = false) : q.GetItem index slot = some (q, slot, false) := by
  unfold GetItem
  rw [h]
  rfl

theorem step_uninit (q : mem_queue T) (c : Call T) (h : q.init_success = false)
    (hl : q.lock = some false) : q.step c = some q := by
  cases c with
  | PushBack item => simp [step, PushBack_uninit q item h]
  | PushFront item => simp [step, PushFront_uninit q item h]
  | PopBack slot => simp [step, PopBack_uninit q slot h]
  | PopFront slot => simp [step, PopFront_uninit q slot h]
  | GetItem index slot => simp [step, GetItem_uninit q index slot h]
  | Count => simp [step, Count_free q hl]

/-! ## The four ways through `Init` when the lock is free -/

theorem Init_again (q : mem_queue T) (count : Int) (outcome : Option (Nat → T))
    (h : q.init_success = true) (hl : q.lock = some false) :
    q.Init count outcome = some (q, true) := by
  obtain ⟨ini, mx, cnt, l, lk⟩ := q
  simp only at h hl
  subst h
  subst hl
  simp [Init, pthread_spin_lock, pthread_spin_unlock, Init_section]

theorem Init_bad_count (q : mem_queue T) (count : Int) (outcome : Option (Nat → T))
    (h : q.init_success = false) (hl : q.lock = some false) (hc : count ≤ 0) :
    q.Init count outcome = some (q, false) := by
  obtain ⟨ini, mx, cnt, l, lk⟩ := q
  simp only at h hl
  subst h
  subst hl
  simp [Init, pthread_spin_lock, pthread_spin_unlock, Init_section, hc]

theorem Init_no_memory (q : mem_queue T) (count : Int)
    (h : q.init_success = false) (hl : q.lock = some false) (hc : 0 < count) :
    q.Init count none = some ({ q with list_max := count, list := none }, false) := by
  obtain ⟨ini, mx, cnt, l, lk⟩ := q
  simp only at h hl
  subst h
  subst hl
  have h1 : ¬ count ≤ 0 := by omega
  simp [Init, pthread_spin_lock, pthread_spin_unlock, Init_section, malloc, h1]

theorem Init_memory (q : mem_queue T) (count : Int) (junk : Nat → T)
    (h : q.init_success = false) (hl : q.lock = some false) (hc : 0 < count) :
    q.Init count (some junk) =
      some ({ init_success := true, list_max := count, list_count := q.list_count,
              list := some ((List.range count.toNat).map junk), lock := some false },
        true) := by
  obtain ⟨ini, mx, cnt, l, lk⟩ := q
  simp only at h hl
  subst h
  subst hl
  have h1 : ¬ count ≤ 0 := by omega
  simp [Init, pthread_spin_lock, pthread_spin_unlock, Init_section, malloc, h1]

/-! ## The life cycle when the lock is free -/

theorem typed_Init_range (count : Int) (outcome : Option (Nat → T))
    (h : (LifeCall.Init count outcome).typed = true) : count ≤ INT_MAX := by
  simp only [LifeCall.typed, Bool.and_eq_true, decide_eq_true_eq] at h
  exact h.2

theorem lifeStep_Lifecycle (q : mem_queue T) (c : LifeCall T) (h : Lifecycle q)
    (ht : c.typed = true) :
    ∃ q', q.lifeStep c = some q' ∧ Lifecycle q' ∧
      (q.init_success = true → q'.init_success = true) := by
  cases c with
  | Init count outcome =>
    have hmax := typed_Init_range count outcome ht
    rcases h with hr | ⟨hi, h0, hb, hl⟩
    · refine ⟨q, ?_, Or.inl hr, fun x => x⟩
      simp [lifeStep, Init_again q count outcome hr.1 hr.2.2.2.2.2]
    · by_cases hc : count ≤ 0
      · refine ⟨q, ?_, Or.inr ⟨hi, h0, hb, hl⟩, fun x => x⟩
        simp [lifeStep, Init_bad_count q count outcome hi hl hc]
      · have hpos : 0 < count := by omega
        cases outcome with
        | none =>
          refine ⟨{ q with list_max := count, list := none }, ?_,
            Or.inr ⟨hi, h0, rfl, hl⟩, ?_⟩
          · simp [lifeStep, Init_no_memory q count hi hl hpos]
          · intro x
            rw [hi] at x
            exact absurd x (by simp)
        | some junk =>
          refine ⟨{ init_success := true, list_max := count, list_count := q.list_count,
                    list := some ((List.range count.toNat).map junk),
                    lock := some false }, ?_,
            Or.inl ?_, fun _ => rfl⟩
          · simp [lifeStep, Init_memory q count junk hi hl hpos]
          · refine ⟨rfl, ?_, ?_, hmax, ?_, rfl⟩
            · simp [h0]
            · simp only [h0]
              omega
            · simp only [Option.map_some', List.length_map, List.length_range,
                Option.some.injEq]
              exact Int.toNat_of_nonneg (by omega)
  | member c =>
    rcases h with hr | ⟨hi, h0, hb, hl⟩
    · obtain ⟨q', h1, h2, _⟩ := step_Ready q c hr
      exact ⟨q', h1, Or.inl h2, fun _ => h2.1⟩
    · exact ⟨q, step_uninit q c hi hl, Or.inr ⟨hi, h0, hb, hl⟩, fun x => x⟩

theorem lifeRun_Lifecycle (calls : List (LifeCall T)) :
    ∀ q : mem_queue T, Lifecycle q → (∀ c ∈ calls, c.typed = true) →
      ∃ q', q.lifeRun calls = some q' ∧ Lifecycle q' ∧
        (q.init_success = true → q'.init_success = true) := by
  induction calls with
  | nil =>
    intro q h _
    exact ⟨q, rfl, h, fun x => x⟩
  | cons c cs ih =>
    intro q h ht
    obtain ⟨q1, h1, h2, h3⟩ := lifeStep_Lifecycle q c h (ht c (List.mem_cons_self c cs))
    obtain ⟨q2, h4, h5, h6⟩ := ih q1 h2 (fun d hd => ht d (List.mem_cons_of_mem c hd))
    refine ⟨q2, ?_, h5, fun x => h6 (h3 x)⟩
    simp [lifeRun, h1, h4]

/-! ## Every access stays inside the block -/

theorem load_isSome_cells (lk : Option Bool) (n : Nat) (cells : List T) (i : Int) :
    ((cellsAt lk n cells).load i).isSome = true ↔ (0 ≤ i ∧ i < (cells.length : Int)) := by
  by_cases hi : 0 ≤ i
  · obtain ⟨k, rfl⟩ := Int.eq_ofNat_of_zero_le hi
    rw [load_cell _ cells rfl _ k rfl]
    by_cases hk : k < cells.length
    · rw [List.getElem?_eq_getElem hk]
      simp [hk]
    · rw [List.getElem?_eq_none (by omega)]
      simp [hk]
  · have hl : (cellsAt lk n cells).load i = none := by simp [load, cellsAt, hi]
    rw [hl]
    simp [hi]

theorem store_isSome_cells (lk : Option Bool) (n : Nat) (cells : List T) (i : Int) (v : T) :
    ((cellsAt lk n cells).store i v).isSome = true ↔
      (0 ≤ i ∧ i < (cells.length : Int)) := by
  by_cases hi : 0 ≤ i ∧ i < (cells.length : Int)
  · simp [store, cellsAt, hi]
  · simp [store, cellsAt, hi]

theorem int_checked_isSome (v : Int) :
    (int_checked v).isSome = true ↔ (INT_MIN ≤ v ∧ v ≤ INT_MAX) := by
  by_cases hv : INT_MIN ≤ v ∧ v ≤ INT_MAX
  · simp [int_checked, hv]
  · simp [int_checked, hv]

theorem sections_isSome (lk : Option Bool) (n : Nat) (cells : List T) (item slot : T)
    (index : Int) (hn : n ≤ cells.length) (hmax : (cells.length : Int) ≤ INT_MAX) :
    ((cellsAt lk n cells).PushBack_section item).isSome = true ∧
      ((cellsAt lk n cells).PushFront_section item).isSome = true ∧
      ((cellsAt lk n cells).PopBack_section slot).isSome = true ∧
      ((cellsAt lk n cells).PopFront_section slot).isSome = true ∧
      ((cellsAt lk n cells).GetItem_section index slot).isSome = true := by
  refine ⟨?_, ?_, ?_, ?_, ?_⟩
  · by_cases c1 : n < cells.length
    · rw [PushBack_section_cells lk n cells item c1 hmax]
      rfl
    · rw [PushBack_section_full lk n cells item (by omega)]
      rfl
  · by_cases c1 : n < cells.length
    · obtain ⟨cells', h1, _⟩ := PushFront_section_cells lk n cells item c1 hmax
      rw [h1]
      rfl
    · rw [PushFront_section_full lk n cells item (by omega)]
      rfl
  · cases n with
    | zero =>
      rw [PopBack_section_empty lk cells slot]
      rfl
    | succ m =>
      rw [PopBack_section_cells lk m cells slot (by omega) hmax]
      rfl
  · cases n with
    | zero =>
      rw [PopFront_section_empty lk cells slot]
      rfl
    | succ m =>
      obtain ⟨cells', h1, _⟩ := PopFront_section_cells lk m cells slot (by omega) hmax
      rw [h1]
      rfl
  · by_cases c1 : index ≤ 0 ∨ index > (n : Int)
    · rw [GetItem_section_range lk n cells slot index c1]
      rfl
    · obtain ⟨k, hk⟩ := Int.eq_ofNat_of_zero_le (show 0 ≤ index - 1 by omega)
      have hidx : index = (k : Int) + 1 := by omega
      subst hidx
      rw [GetItem_section_cells lk n cells slot k (by omega) hn]
      rfl

theorem loops_isSome (lk : Option Bool) (n : Nat) (cells : List T) :
    (n < cells.length → (PushFront_loop n (cellsAt lk n cells)).isSome = true) ∧
      (n < cells.length →
        (PopFront_loop n 0 (cellsAt lk n cells)).isSome = true) := by
  constructor
  · intro hn
    obtain ⟨cells', h1, _⟩ := PushFront_loop_cells n (cellsAt lk n cells) cells rfl hn
    rw [h1]
    rfl
  · intro hn
    obtain ⟨cells', h1, _⟩ :=
      PopFront_loop_cells n 0 (cellsAt lk n cells) cells rfl (by omega)
    rw [h1]
    rfl

theorem members_isSome_iff (lk : Option Bool) (n : Nat) (cells : List T) (item slot : T)
    (index : Int) (hn : n ≤ cells.length) (hmax : (cells.length : Int) ≤ INT_MAX) :
    (((cellsAt lk n cells).PushBack item).isSome = true ↔ lk = some false) ∧
      (((cellsAt lk n cells).PushFront item).isSome = true ↔ lk = some false) ∧
      (((cellsAt lk n cells).PopBack slot).isSome = true ↔ lk = some false) ∧
      (((cellsAt lk n cells).PopFront slot).isSome = true ↔ lk = some false) ∧
      (((cellsAt lk n cells).GetItem index slot).isSome = true ↔ lk = some false) := by
  by_cases hl : lk = some false
  · subst hl
    have hall : ∀ c : Call T, ((ofCells n cells).step c).isSome = true := by
      intro c
      obtain ⟨q', h1, _⟩ := step_Ready (ofCells n cells) c (Ready_ofCells n cells hn hmax)
      rw [h1]
      rfl
    have e : (cellsAt (some false) n cells : mem_queue T) = ofCells n cells := rfl
    rw [e]
    have hb := hall (Call.PushBack item)
    have hf := hall (Call.PushFront item)
    have pb := hall (Call.PopBack slot)
    have pf := hall (Call.PopFront slot)
    have gi := hall (Call.GetItem index slot)
    simp only [step, Option.isSome_map'] at hb hf pb pf gi
    simp [hb, hf, pb, pf, gi]
  · have h2 : (cellsAt lk n cells).lock ≠ some false := hl
    rw [PushBack_unusable _ item rfl h2, PushFront_unusable _ item rfl h2,
      PopBack_unusable _ slot rfl h2, PopFront_unusable _ slot rfl h2,
      GetItem_unusable _ index slot rfl h2]
    simp [hl]

/-! ## More of what the members do when the lock is free -/

/-- Given a free lock: after every step of every sequence of member calls on an
initialised container the count lies between `0` and the capacity, and
`Count()` returns it. -/
theorem count_within_capacity_with_lock (q : mem_queue T) (calls : List (Call T))
    (k : Nat) (h : Ready q) :
    ∃ q', q.run (calls.take k) = some q' ∧ 0 ≤ q'.list_count ∧
      q'.list_count ≤ q.list_max ∧ q'.Count = some (q', q'.list_count) := by
  obtain ⟨q', h1, h2, h3⟩ := run_Ready (calls.take k) q h
  refine ⟨q', h1, h2.2.1, ?_, Count_free q' h2.2.2.2.2.2⟩
  rw [← h3]
  exact h2.2.2.1

/-- Given a free lock: `Init` with a positive capacity and a successful
allocation on a container with no element returns true and leaves an
initialised container of exactly that capacity, on which that many `PushBack`
calls return true and the next returns false. -/
theorem Init_success_with_lock (q : mem_queue T) (c : Int) (junk : Nat → T)
    (xs : List T) (x : T)
    (hu : q.init_success = false) (hl : q.lock = some false) (h0 : q.list_count = 0)
    (hc : 0 < c) (hint : c ≤ INT_MAX) (hxs : (xs.length : Int) = c) :
    ∃ q1 cells, q.Init c (some junk) = some (q1, true) ∧
      q1.init_success = true ∧ q1.list_max = c ∧ q1.list_count = 0 ∧
      q1.list = some cells ∧ (cells.length : Int) = c ∧
      ∃ q2, q1.pushBackAll xs = some (q2, List.replicate xs.length true) ∧
        q2.PushBack x = some (q2, false) := by
  have hlen : (((List.range c.toNat).map junk).length : Int) = c := by
    simp
    omega
  have hq1 : q.Init c (some junk) =
      some (ofCells 0 ((List.range c.toNat).map junk), true) := by
    rw [Init_memory q c junk hu hl hc, h0]
    simp only [ofCells, hlen]
    rfl
  have hfit : 0 + xs.length ≤ ((List.range c.toNat).map junk).length := by omega
  obtain ⟨cells', h1, h2, _⟩ :=
    pushBackAll_ofCells xs 0 ((List.range c.toNat).map junk) hfit (by rw [hlen]; exact hint)
  have hfull : xs.length = cells'.length := by omega
  rw [Nat.zero_add] at h1
  refine ⟨ofCells 0 ((List.range c.toNat).map junk), (List.range c.toNat).map junk, hq1,
    rfl, hlen, rfl, rfl, hlen, ofCells xs.length cells', h1, ?_⟩
  exact PushBack_full xs.length cells' x hfull

/-! ## The claims, settled on the class as it is

The lock pointer is null in every object, so the constructor, `Init`, `Count`
and every member call that gets past the test of the flag end in
`pthread_spin_*` on a null pointer. -/

/-- C1 on the code: construction has no result, so neither has the use
`Init(2); PushBack(1); Count()`; and on the fields of an initialised container
with the null lock pointer, `PushBack` and `Count` have no result, where the
claim has the count and the value of `Count()` in `[0, C]` after every step. -/
theorem count_bounds_use_has_no_result :
    (ctor : Option (mem_queue Nat)) = none ∧
      session [LifeCall.Init 2 (some (fun _ => (0 : Nat))),
        LifeCall.member (Call.PushBack 1), LifeCall.member Call.Count] = none ∧
      (fields : mem_queue Nat).Init 2 (some (fun _ => 0)) = none ∧
      (asBuilt sample).PushBack 1 = none ∧ (asBuilt sample).Count = none := by
  decide

/-- C2 on the code: construction has no result, so neither has the use
`Init(3); PushBack(1); PushBack(2); PopFront; PopFront`; and on the fields of
an empty initialised container with the null lock pointer, the first
`PushBack` and a `PopFront` have no result, where the claim has them return
true. -/
theorem fifo_use_has_no_result :
    (ctor : Option (mem_queue Nat)) = none ∧
      session [LifeCall.Init 3 (some (fun _ => (0 : Nat))),
        LifeCall.member (Call.PushBack 1), LifeCall.member (Call.PushBack 2),
        LifeCall.member (Call.PopFront 0), LifeCall.member (Call.PopFront 0)] = none ∧
      (asBuilt sampleEmpty).pushBackAll [1, 2] = none ∧
      (asBuilt sample).popFrontTimes 2 0 = none := by
  decide

/-- C3 on the code: construction has no result, so neither has the use
`Init(3); PushBack(1); PushBack(2); PopBack; PopBack`; and on the fields of an
initialised container with the null lock pointer, the first `PushBack` and a
`PopBack` have no result, where the claim has them return true. -/
theorem lifo_use_has_no_result :
    (ctor : Option (mem_queue Nat)) = none ∧
      session [LifeCall.Init 3 (some (fun _ => (0 : Nat))),
        LifeCall.member (Call.PushBack 1), LifeCall.member (Call.PushBack 2),
        LifeCall.member (Call.PopBack 0), LifeCall.member (Call.PopBack 0)] = none ∧
      (asBuilt sampleEmpty).pushBackAll [1, 2] = none ∧
      (asBuilt sample).popBackTimes 2 0 = none := by
  decide

/-- C4 on the code: construction has no result, so neither have the uses
`Init(3); PushBack(7); PopBack` and `Init(3); PushFront(7); PopFront`; and on
the fields of an initialised container with room left and the null lock
pointer, each of the four calls has no result, where the claim has them return
true. -/
theorem round_trip_use_has_no_result :
    (ctor : Option (mem_queue Nat)) = none ∧
      session [LifeCall.Init 3 (some (fun _ => (0 : Nat))),
        LifeCall.member (Call.PushBack 7), LifeCall.member (Call.PopBack 0)] = none ∧
      session [LifeCall.Init 3 (some (fun _ => (0 : Nat))),
        LifeCall.member (Call.PushFront 7), LifeCall.member (Call.PopFront 0)] = none ∧
      (asBuilt sample).PushBack 7 = none ∧ (asBuilt sample).PopBack 0 = none ∧
      (asBuilt sample).PushFront 7 = none ∧ (asBuilt sample).PopFront 0 = none := by
  decide

/-- C5 on the code: construction has no result, so neither has the use
`Init(3); PushBack(7)`; and on the fields of an initialised container with the
null lock pointer `PushBack` has no result, full or not, where the claim has
it return false or true. -/
theorem PushBack_on_initialized_has_no_result :
    (ctor : Option (mem_queue Nat)) = none ∧
      session [LifeCall.Init 3 (some (fun _ => (0 : Nat))),
        LifeCall.member (Call.PushBack 7)] = none ∧
      (asBuilt sample).PushBack 7 = none ∧ (asBuilt sampleFull).PushBack 7 = none := by
  decide

/-- C6 on the code: construction has no result, so neither has the use
`Init(3); PushFront(7)`; and on the fields of an initialised container with
the null lock pointer `PushFront` has no result, full or not, where the claim
has it return false or true. -/
theorem PushFront_on_initialized_has_no_result :
    (ctor : Option (mem_queue Nat)) = none ∧
      session [LifeCall.Init 3 (some (fun _ => (0 : Nat))),
        LifeCall.member (Call.PushFront 7)] = none ∧
      (asBuilt sample).PushFront 7 = none ∧ (asBuilt sampleFull).PushFront 7 = none := by
  decide

/-- C7 on the code: construction has no result, so neither has the use
`Init(3); PushBack(7); PopFront`; and on the fields of an initialised
container with the null lock pointer `PopFront` has no result, empty or not,
where the claim has it return false or true. -/
theorem PopFront_on_initialized_has_no_result :
    (ctor : Option (mem_queue Nat)) = none ∧
      session [LifeCall.Init 3 (some (fun _ => (0 : Nat))),
        LifeCall.member (Call.PushBack 7), LifeCall.member (Call.PopFront 0)] = none ∧
      (asBuilt sample).PopFront 0 = none ∧ (asBuilt sampleEmpty).PopFront 0 = none := by
  decide

/-- C8 on the code: construction has no result, so neither has the use
`Init(3); PushBack(7); PopBack`; and on the fields of an initialised container
with the null lock pointer `PopBack` has no result, empty or not, where the
claim has it return false or true. -/
theorem PopBack_on_initialized_has_no_result :
    (ctor : Option (mem_queue Nat)) = none ∧
      session [LifeCall.Init 3 (some (fun _ => (0 : Nat))),
        LifeCall.member (Call.PushBack 7), LifeCall.member (Call.PopBack 0)] = none ∧
      (asBuilt sample).PopBack 0 = none ∧ (asBuilt sampleEmpty).PopBack 0 = none := by
  decide

/-- C9 on the code: construction has no result, so neither has the use
`Init(3); PushBack(7); GetItem(1)`; and on the fields of an initialised
container holding two elements with the null lock pointer `GetItem` has no
result for the indices -1, 0, 1, 2 and 3, where the claim has it return false
or true. -/
theorem GetItem_on_initialized_has_no_result :
    (ctor : Option (mem_queue Nat)) = none ∧
      session [LifeCall.Init 3 (some (fun _ => (0 : Nat))),
        LifeCall.member (Call.PushBack 7), LifeCall.member (Call.GetItem 1 0)] = none ∧
      (asBuilt sample).GetItem (-1) 5 = none ∧ (asBuilt sample).GetItem 0 5 = none ∧
      (asBuilt sample).GetItem 1 5 = none ∧ (asBuilt sample).GetItem 2 5 = none ∧
      (asBuilt sample).GetItem 3 5 = none := by
  decide

/-- C10 on the code: construction has no result, so neither has the use
`Init(3); PushBack(7); GetItem(1); PopFront`; and on the fields of an
initialised container holding two elements with the null lock pointer
`GetItem(1)`, `GetItem(count)`, `PopFront` and `PopBack` have no result, where
the claim has them succeed. -/
theorem front_and_back_use_has_no_result :
    (ctor : Option (mem_queue Nat)) = none ∧
      session [LifeCall.Init 3 (some (fun _ => (0 : Nat))),
        LifeCall.member (Call.PushBack 7), LifeCall.member (Call.GetItem 1 0),
        LifeCall.member (Call.PopFront 0)] = none ∧
      (asBuilt sample).GetItem 1 0 = none ∧
      (asBuilt sample).GetItem (asBuilt sample).list_count 0 = none ∧
      (asBuilt sample).PopFront 0 = none ∧ (asBuilt sample).PopBack 0 = none := by
  decide

/-- C11 on the code: on the object as the member initialisers leave it (flag
false, null lock pointer) `PushBack`, `PushFront`, `PopBack`, `PopFront` and
`GetItem` return false and leave the state and the output slot as they were,
as the claim says; `Count()`, which takes the lock without a test of the flag,
has no result, where the claim has it return 0; and construction itself has no
result. -/
theorem Count_before_Init_has_no_result :
    (fields : mem_queue Nat).PushBack 7 = some (fields, false) ∧
      (fields : mem_queue Nat).PushFront 7 = some (fields, false) ∧
      (fields : mem_queue Nat).PopBack 9 = some (fields, 9, false) ∧
      (fields : mem_queue Nat).PopFront 9 = some (fields, 9, false) ∧
      (fields : mem_queue Nat).GetItem 1 9 = some (fields, 9, false) ∧
      (fields : mem_queue Nat).Count = none ∧
      (ctor : Option (mem_queue Nat)) = none ∧
      session [LifeCall.member (Call.Count : Call Nat)] = none := by
  decide

/-- C12 on the code: construction has no result, so neither has the use
`Init(1); PushBack(4); PushBack(5); PopFront; PushFront(6)`; `Init(1)` on the
object as the member initialisers leave it has no result; and on the fields of
a full container with the null lock pointer a push at either end has no
result, where the claim has it return false, and neither has a pop. -/
theorem capacity_use_has_no_result :
    (ctor : Option (mem_queue Nat)) = none ∧
      session [LifeCall.Init 1 (some (fun _ => (0 : Nat))),
        LifeCall.member (Call.PushBack 4), LifeCall.member (Call.PushBack 5),
        LifeCall.member (Call.PopFront 0), LifeCall.member (Call.PushFront 6)] = none ∧
      (fields : mem_queue Nat).Init 1 (some (fun _ => 0)) = none ∧
      (asBuilt sampleFull).pushAt Side.back 5 = none ∧
      (asBuilt sampleFull).pushAt Side.front 5 = none ∧
      (asBuilt sampleFull).popAt Side.back 0 = none ∧
      (asBuilt sampleFull).popAt Side.front 0 = none := by
  decide

/-- C13 on the code: construction has no result, so neither has the use
`Init(3); Init(-2)`; the first `Init` on the object as the member initialisers
leave it has no result, and a second `Init` on the fields of an initialised
container with the null lock pointer has none either, where the claim has both
return true. -/
theorem second_Init_has_no_result :
    (ctor : Option (mem_queue Nat)) = none ∧
      session [LifeCall.Init 3 (some (fun _ => (0 : Nat))), LifeCall.Init (-2) none] = none ∧
      (fields : mem_queue Nat).Init 3 (some (fun _ => 0)) = none ∧
      (asBuilt sample).Init (-2) none = none ∧
      (asBuilt sample).Init 3 (some (fun _ => 0)) = none := by
  decide

/-- C14, as the code has it: on an initialised container whose lock is free,
`Init` leaves the whole state unchanged and returns true (the value of the
flag), for every argument. -/
theorem Init_on_initialized (q : mem_queue T) (count : Int) (outcome : Option (Nat → T))
    (h : q.init_success = true) (hl : q.lock = some false) :
    q.Init count outcome = some (q, true) :=
  Init_again q count outcome h hl

/-- Witness of C14 as amended: `Init(4)` on a container holding `10, 20`. -/
theorem Init_on_initialized_witness :
    sample.init_success = true ∧ sample.lock = some false ∧
      sample.Init 4 (some (fun _ => 0)) = some (sample, true) :=
  ⟨by decide, by decide,
    Init_on_initialized sample 4 (some (fun _ => 0)) (by decide) (by decide)⟩

/-- C14 as stated fails: on an initialised container `Init` never returns
false. With a free lock it returns true and leaves the state unchanged; with
the null lock pointer of the class it has no result, and neither has the use
`Init(3); Init(4)` from construction. -/
theorem Init_on_initialized_not_false :
    sample.Init 4 (some (fun _ => 0)) = some (sample, true) ∧
      sample.Init 4 (some (fun _ => 0)) ≠ some (sample, false) ∧
      (asBuilt sample).Init 4 (some (fun _ => 0)) = none ∧
      (asBuilt sample).Init 4 (some (fun _ => 0)) ≠ some (asBuilt sample, false) ∧
      session [LifeCall.Init 3 (some (fun _ => (0 : Nat))),
        LifeCall.Init 4 (some (fun _ => 0))] = none := by
  decide

/-- C15, as the code has it: when `Init` is called with a positive capacity on
a container whose initialisation has not succeeded (no buffer) and whose lock
is free, and the allocation fails, it returns false; the flag stays false, the
buffer stays unallocated and the count keeps its value, while `list_max`
becomes the requested capacity. -/
theorem Init_allocation_failure (q : mem_queue T) (count : Int)
    (hu : q.init_success = false) (hl : q.lock = some false) (hb : q.list = none)
    (hc : 0 < count) :
    q.Init count none = some ({ q with list_max := count }, false) := by
  rw [Init_no_memory q count hu hl hc, hb]

/-- Witness of C15 as amended: a failed `Init(8)`. -/
theorem Init_allocation_failure_witness :
    sampleFresh.init_success = false ∧ sampleFresh.lock = some false ∧
      sampleFresh.list = none ∧ (0 : Int) < 8 ∧
      sampleFresh.Init 8 none = some ({ sampleFresh with list_max := 8 }, false) :=
  ⟨by decide, by decide, by decide, by decide,
    Init_allocation_failure sampleFresh 8 (by decide) (by decide) (by decide) (by decide)⟩

/-- C15 as stated fails: a failed `Init(5)` does not return false with the
state as it was. With a free lock it returns false but `list_max` goes from 0
to 5; with the null lock pointer of the class it has no result, and neither
has the use `Init(5)` from construction. -/
theorem Init_allocation_failure_changes_list_max :
    sampleFresh.Init 5 none = some ({ sampleFresh with list_max := 5 }, false) ∧
      sampleFresh.list_max = 0 ∧
      sampleFresh.Init 5 none ≠ some (sampleFresh, false) ∧
      (fields : mem_queue Nat).Init 5 none = none ∧
      (fields : mem_queue Nat).Init 5 none ≠ some (fields, false) ∧
      session [LifeCall.Init 5 (none : Option (Nat → Nat))] = none := by
  decide

/-- C16 on the code: construction has no result, so neither has the use
`Init(0)`; and `Init(0)` and `Init(-3)` on the object as the member
initialisers leave it have no result, because the lock is taken before the
test of the count, where the claim has them return false. -/
theorem Init_nonpositive_has_no_result :
    (ctor : Option (mem_queue Nat)) = none ∧
      session [LifeCall.Init 0 (some (fun _ => (0 : Nat)))] = none ∧
      (fields : mem_queue Nat).Init 0 (some (fun _ => 0)) = none ∧
      (fields : mem_queue Nat).Init (-3) none = none := by
  decide

/-- C17 on the code: construction has no result, so neither has the use
`Init(2); PushBack(4); PushBack(5); PushBack(6)`; and `Init(2)` with a
successful allocation on the object as the member initialisers leave it has no
result, where the claim has it return true. -/
theorem Init_positive_has_no_result :
    (ctor : Option (mem_queue Nat)) = none ∧
      session [LifeCall.Init 2 (some (fun _ => (0 : Nat))),
        LifeCall.member (Call.PushBack 4), LifeCall.member (Call.PushBack 5),
        LifeCall.member (Call.PushBack 6)] = none ∧
      (fields : mem_queue Nat).Init 2 (some (fun _ => 0)) = none := by
  decide

/-- C20: index safety. On consistent fields of an initialised container (flag
true, a block of `capacity` cells, `0 <= count <= capacity <= INT_MAX`),
whatever the lock pointer: a read or write of `list[i]` has a result exactly
when `0 <= i < capacity` and an `int` computation exactly when its value fits
32 bits; the statements that `PushBack`, `PushFront`, `PopBack`, `PopFront` and
`GetItem` run between lock and unlock have a result for every argument, so
every buffer access they make is inside the block; both shift loops run to
their end; the increment and the decrement of the count stay in range; and a
member call as a whole has a result exactly when the lock is free, so the lock
is the only thing that can go wrong in it. -/
theorem accesses_stay_in_block (q : mem_queue T) (item slot : T) (index : Int)
    (h : Initialized q) :
    (∀ i : Int, (q.load i).isSome = true ↔ (0 ≤ i ∧ i < q.list_max)) ∧
    (∀ (i : Int) (v : T), (q.store i v).isSome = true ↔ (0 ≤ i ∧ i < q.list_max)) ∧
    (∀ v : Int, (int_checked v).isSome = true ↔ (INT_MIN ≤ v ∧ v ≤ INT_MAX)) ∧
    ((q.PushBack_section item).isSome = true ∧ (q.PushFront_section item).isSome = true ∧
      (q.PopBack_section slot).isSome = true ∧ (q.PopFront_section slot).isSome = true ∧
      (q.GetItem_section index slot).isSome = true) ∧
    (q.list_count < q.list_max →
      (PushFront_loop q.list_count.toNat q).isSome = true ∧
        (int_checked (q.list_count + 1)).isSome = true) ∧
    (q.list_count ≠ 0 →
      (PopFront_loop (q.list_count - 1).toNat 0
          { q with list_count := q.list_count - 1 }).isSome = true ∧
        (int_checked (q.list_count - 1)).isSome = true) ∧
    (((q.PushBack item).isSome = true ↔ q.lock = some false) ∧
      ((q.PushFront item).isSome = true ↔ q.lock = some false) ∧
      ((q.PopBack slot).isSome = true ↔ q.lock = some false) ∧
      ((q.PopFront slot).isSome = true ↔ q.lock = some false) ∧
      ((q.GetItem index slot).isSome = true ↔ q.lock = some false)) := by
  have hmin : INT_MIN ≤ 0 := by decide
  obtain ⟨n, cells, hq, hn, hmax⟩ := h.inCells
  generalize q.lock = lk at hq
  subst hq
  refine ⟨fun i => load_isSome_cells lk n cells i,
    fun i v => store_isSome_cells lk n cells i v, int_checked_isSome,
    sections_isSome lk n cells item slot index hn hmax, ?_, ?_,
    members_isSome_iff lk n cells item slot index hn hmax⟩
  · intro hlt
    have hn1 : n < cells.length := by
      simp only [cellsAt] at hlt
      omega
    constructor
    · have e : (cellsAt lk n cells).list_count.toNat = n := by simp [cellsAt]
      rw [e]
      exact (loops_isSome lk n cells).1 hn1
    · rw [int_checked_isSome]
      simp only [cellsAt]
      omega
  · intro hne
    cases n with
    | zero => exact absurd rfl hne
    | succ m =>
      have e1 : (cellsAt lk (m + 1) cells).list_count - 1 = (m : Int) := by
        simp [cellsAt]
      constructor
      · rw [e1]
        exact (loops_isSome lk m cells).2 (by omega)
      · rw [int_checked_isSome, e1]
        omega

/-- Witness of C20: the fields of a container holding `10, 20` in a block of 3
cells, with the null lock pointer of the class. -/
theorem accesses_stay_in_block_witness :
    Initialized (asBuilt sample) ∧
      ((asBuilt sample).PushBack_section 7).isSome = true ∧
      ((asBuilt sample).PushFront_section 7).isSome = true ∧
      ((asBuilt sample).PopBack_section 0).isSome = true ∧
      ((asBuilt sample).PopFront_section 0).isSome = true ∧
      ((asBuilt sample).GetItem_section 2 0).isSome = true :=
  ⟨by decide, (accesses_stay_in_block (asBuilt sample) 7 0 2 (by decide)).2.2.2.1⟩

end mem_queue

end MemManage
